import Mathlib

/-!
Shallow embedding of the StateRail run-execution engine.

Sources embedded here:
 - `src/apps/api/src/db.ts` (the Store: sqlite tables modelled as Lean lists,
   one list per table, kept in rowid/insertion order);
 - `src/apps/api/src/executor.ts` (the Executor: `enqueueRun`, `execute`,
   `runNonManualStep`, `completeManualStep`, and the in-memory `activeRuns` set);
 - the `startRun` resolver of the GraphQL entry file.

Modelling conventions:
 - `nanoid()` is modelled by a counter `nextId` in the database state; each call
   returns the counter and increments it, so generated ids are fresh.
 - `now()` (ISO timestamp) is modelled by a counter `clock`; each call returns
   the counter and increments it, so timestamps are strictly increasing and the
   sqlite `ORDER BY created_at` ordering of events coincides with insertion order.
 - `publish` on the pub/sub broker carries no persistent state and is omitted.
 - `fetch` is modelled by an environment function returning either a thrown
   message (promise rejection) or a numeric response status; `res.ok` is the
   node-fetch predicate `200 <= status < 300`.
 - Operations run atomically to completion (sequential model of the async code).
 - Foreign keys are not enforced, matching the sqlite setup in `db.ts`, which
   never issues `PRAGMA foreign_keys = ON`.
-/

set_option maxHeartbeats 1000000

set_option synthInstance.maxHeartbeats 1000000

namespace StateRail

abbrev Id := Nat

inductive StepType
  | HTTP
  | DELAY
  | MANUAL
deriving DecidableEq, Repr

inductive RunStatus
  | PENDING
  | RUNNING
  | SUCCEEDED
  | FAILED
deriving DecidableEq, Repr

inductive EventType
  | RUN_STARTED
  | STEP_STARTED
  | STEP_SUCCEEDED
  | STEP_FAILED
  | RUN_SUCCEEDED
  | RUN_FAILED
deriving DecidableEq, Repr

/-- Kind-dependent step configuration (`config` JSON blob in `db.ts`).
`JSON.stringify`/`JSON.parse` round-trips it verbatim, so it is kept structured. -/
structure StepConfig where
  url : Option String
  method : Option String
  seconds : Option Nat
deriving DecidableEq, Repr

/-- Row of the `workflows` table. -/
structure WorkflowRow where
  id : Id
  name : String
  description : Option String
  createdAt : Nat
deriving DecidableEq, Repr

/-- Row of the `workflow_steps` table (`step_order` column is `order`). -/
structure WorkflowStep where
  id : Id
  workflowId : Id
  name : String
  type : StepType
  config : StepConfig
  order : Int
deriving DecidableEq, Repr

/-- The `Workflow` value returned by `getWorkflow` (row plus ordered steps). -/
structure Workflow where
  id : Id
  name : String
  description : Option String
  createdAt : Nat
  steps : List WorkflowStep
deriving DecidableEq, Repr

/-- Row of the `workflow_runs` table. -/
structure WorkflowRun where
  id : Id
  workflowId : Id
  status : RunStatus
  createdAt : Nat
  startedAt : Option Nat
  finishedAt : Option Nat
deriving DecidableEq, Repr

/-- Row of the `step_runs` table. -/
structure StepRun where
  id : Id
  workflowRunId : Id
  workflowStepId : Id
  status : RunStatus
  startedAt : Option Nat
  finishedAt : Option Nat
deriving DecidableEq, Repr

/-- Row of the `events` table. -/
structure Event where
  id : Id
  workflowRunId : Id
  stepRunId : Option Id
  type : EventType
  message : String
  createdAt : Nat
deriving DecidableEq, Repr

/-- The sqlite database of `db.ts`: one list per table, in rowid order,
plus the id generator and the clock. -/
structure DB where
  workflows : List WorkflowRow
  workflowSteps : List WorkflowStep
  workflowRuns : List WorkflowRun
  stepRuns : List StepRun
  events : List Event
  nextId : Nat
  clock : Nat
deriving DecidableEq, Repr

def emptyDB : DB := ⟨[], [], [], [], [], 0, 0⟩

/-- Step input as supplied to `createWorkflow`/`updateWorkflow`
(GraphQL `WorkflowStepInput`): optional id, optional config. -/
structure StepInput where
  id : Option Id
  name : String
  type : StepType
  config : Option StepConfig
  order : Int
deriving DecidableEq, Repr

/-- `JSON.stringify(s.config ?? {})`: an absent config is stored as `{}`. -/
def emptyConfig : StepConfig := ⟨none, none, none⟩

/-- Stable insertion of a step into a list sorted by `step_order`
(ties keep the earlier element first, matching rowid order). -/
def insertByOrder (s : WorkflowStep) : List WorkflowStep → List WorkflowStep
  | [] => [s]
  | t :: ts => if t.order < s.order then t :: insertByOrder s ts else s :: t :: ts

/-- `ORDER BY step_order ASC` of `listWorkflowSteps`. -/
def sortByOrder : List WorkflowStep → List WorkflowStep
  | [] => []
  | s :: ss => insertByOrder s (sortByOrder ss)

/-- `listWorkflowSteps(workflowId)` from `db.ts`. -/
def listWorkflowSteps (db : DB) (workflowId : Id) : List WorkflowStep :=
  sortByOrder (db.workflowSteps.filter fun s => s.workflowId == workflowId)

/-- `getWorkflow(id)` from `db.ts`: the row plus its steps in `step_order`. -/
def getWorkflow (db : DB) (id : Id) : Option Workflow :=
  (db.workflows.find? fun w => w.id == id).map fun w =>
    { id := w.id, name := w.name, description := w.description,
      createdAt := w.createdAt, steps := listWorkflowSteps db id }

/-- The step-insertion loop of `createWorkflow`: every step gets a fresh
`nanoid()`, the provided `order` is honored. -/
def insertNewSteps (workflowId : Id) : DB → List StepInput → DB
  | db, [] => db
  | db, s :: rest =>
    insertNewSteps workflowId
      { db with
        workflowSteps := db.workflowSteps ++
          [⟨db.nextId, workflowId, s.name, s.type, s.config.getD emptyConfig, s.order⟩],
        nextId := db.nextId + 1 } rest

/-- `createWorkflow(input)` from `db.ts`. -/
def createWorkflow (db : DB) (name : String) (description : Option String)
    (steps : List StepInput) : DB × Option Workflow :=
  let wid := db.nextId
  let db := { db with nextId := db.nextId + 1 }
  let createdAt := db.clock
  let db := { db with clock := db.clock + 1 }
  let db := { db with workflows := db.workflows ++ [⟨wid, name, description, createdAt⟩] }
  let db := insertNewSteps wid db steps
  (db, getWorkflow db wid)

/-- The step-insertion loop of `updateWorkflow`:
`insertStep.run(s.id ?? nanoid(), ...)` — a provided id is kept, an absent id
draws a fresh `nanoid()`. `workflow_steps.id` is the table's PRIMARY KEY, so an
INSERT whose id is already present in the table throws a SqliteError
("UNIQUE constraint failed"), aborting the surrounding transaction; this is
the one insertion path where caller-provided ids reach an INSERT, hence the
explicit check (the other tables' inserts use freshly generated nanoids, whose
collision-resistance the source assumes). -/
def insertUpdatedSteps (workflowId : Id) : DB → List StepInput → Except String DB
  | db, [] => .ok db
  | db, s :: rest =>
    match s.id with
    | some j =>
      if db.workflowSteps.any fun t => t.id == j then
        .error "UNIQUE constraint failed: workflow_steps.id"
      else
        insertUpdatedSteps workflowId
          { db with
            workflowSteps := db.workflowSteps ++
              [⟨j, workflowId, s.name, s.type, s.config.getD emptyConfig, s.order⟩] } rest
    | none =>
      if db.workflowSteps.any fun t => t.id == db.nextId then
        .error "UNIQUE constraint failed: workflow_steps.id"
      else
        insertUpdatedSteps workflowId
          { db with
            workflowSteps := db.workflowSteps ++
              [⟨db.nextId, workflowId, s.name, s.type, s.config.getD emptyConfig, s.order⟩],
            nextId := db.nextId + 1 } rest

/-- `updateWorkflow(input)` from `db.ts`: update name/description
(`input.x ?? existing.x`), delete all steps of the workflow, reinsert the
provided list — all inside one transaction; throws "Workflow not found" when
the id is unknown. When an insert violates the `workflow_steps.id` PRIMARY
KEY, the transaction rolls back (the pre-transaction state is restored, the
name/description update and the deletes included) and the error propagates. -/
def updateWorkflow (db : DB) (id : Id) (name : Option String)
    (description : Option String) (steps : List StepInput) :
    DB × Except String (Option Workflow) :=
  match getWorkflow db id with
  | none => (db, .error "Workflow not found")
  | some existing =>
    let db1 := { db with workflows := db.workflows.map fun (w : WorkflowRow) =>
      if w.id = id then
        { w with name := name.getD existing.name,
                 description := description.orElse fun _ => existing.description }
      else w }
    let db2 := { db1 with workflowSteps := db1.workflowSteps.filter fun s => !(s.workflowId == id) }
    match insertUpdatedSteps id db2 steps with
    | .ok db3 => (db3, .ok (getWorkflow db3 id))
    | .error e => (db, .error e)

/-- `getRun(id)` from `db.ts`. -/
def getRun (db : DB) (id : Id) : Option WorkflowRun :=
  db.workflowRuns.find? fun r => r.id == id

/-- `listStepRuns(runId)` from `db.ts` (`ORDER BY rowid ASC` = insertion order). -/
def listStepRuns (db : DB) (runId : Id) : List StepRun :=
  db.stepRuns.filter fun s => s.workflowRunId == runId

/-- `listEvents(runId)` from `db.ts` (`ORDER BY created_at ASC`; the modelled
clock is strictly increasing, so this is insertion order). -/
def listEvents (db : DB) (runId : Id) : List Event :=
  db.events.filter fun e => e.workflowRunId == runId

/-- `getStepRunById(id)` from `db.ts`. -/
def getStepRunById (db : DB) (id : Id) : Option StepRun :=
  db.stepRuns.find? fun r => r.id == id

/-- `getStepRunsMap(runId)` from `db.ts`: `Object.fromEntries` keyed by
`workflowStepId`; a later entry overrides an earlier one, hence the
reverse-find. -/
def getStepRunsMap (db : DB) (runId : Id) : Id → Option StepRun :=
  fun stepId => (listStepRuns db runId).reverse.find? fun s => s.workflowStepId == stepId

/-- The step-run insertion loop of `createRun`: one PENDING StepRun per step. -/
def insertStepRuns (runId : Id) : DB → List WorkflowStep → DB
  | db, [] => db
  | db, s :: rest =>
    insertStepRuns runId
      { db with
        stepRuns := db.stepRuns ++ [⟨db.nextId, runId, s.id, .PENDING, none, none⟩],
        nextId := db.nextId + 1 } rest

/-- `createRun(workflowId)` from `db.ts`: inserts a PENDING run row, then a
PENDING StepRun per workflow step, and returns `getRun(id)!`.
Note: the source performs no existence check on `workflowId` and foreign keys
are not enforced. -/
def createRun (db : DB) (workflowId : Id) : DB × Option WorkflowRun :=
  let rid := db.nextId
  let db := { db with nextId := db.nextId + 1 }
  let createdAt := db.clock
  let db := { db with clock := db.clock + 1 }
  let db := { db with workflowRuns := db.workflowRuns ++ [⟨rid, workflowId, .PENDING, createdAt, none, none⟩] }
  let steps := listWorkflowSteps db workflowId
  let db := insertStepRuns rid db steps
  (db, getRun db rid)

/-- `updateRunStatus(runId, status)` from `db.ts`:
`UPDATE workflow_runs SET status = ?, started_at = COALESCE(started_at, ?),
finished_at = COALESCE(finished_at, ?)` where the started argument is `now()`
for RUNNING (else NULL) and the finished argument is `now()` for a terminal
status (else NULL). One `now()` call happens per non-PENDING status, hence the
clock increment. -/
def updateRunStatus (db : DB) (runId : Id) (status : RunStatus) : DB :=
  { db with
    clock := db.clock +
      (if status = .RUNNING ∨ status = .SUCCEEDED ∨ status = .FAILED then 1 else 0),
    workflowRuns := db.workflowRuns.map fun r =>
      if r.id = runId then
        { r with
          status := status,
          startedAt := r.startedAt.orElse fun _ =>
            if status = .RUNNING then some db.clock else none,
          finishedAt := r.finishedAt.orElse fun _ =>
            if status = .SUCCEEDED ∨ status = .FAILED then some db.clock else none }
      else r }

/-- `updateStepRunStatus(stepRunId, status)` from `db.ts`: identical SQL as
`updateRunStatus`, on the `step_runs` table. -/
def updateStepRunStatus (db : DB) (stepRunId : Id) (status : RunStatus) : DB :=
  { db with
    clock := db.clock +
      (if status = .RUNNING ∨ status = .SUCCEEDED ∨ status = .FAILED then 1 else 0),
    stepRuns := db.stepRuns.map fun r =>
      if r.id = stepRunId then
        { r with
          status := status,
          startedAt := r.startedAt.orElse fun _ =>
            if status = .RUNNING then some db.clock else none,
          finishedAt := r.finishedAt.orElse fun _ =>
            if status = .SUCCEEDED ∨ status = .FAILED then some db.clock else none }
      else r }

/-- `appendEvent(input)` from `db.ts`: insert with fresh `nanoid()` and
`now()`. -/
def appendEvent (db : DB) (workflowRunId : Id) (stepRunId : Option Id)
    (type : EventType) (message : String) : DB :=
  { db with
    events := db.events ++ [⟨db.nextId, workflowRunId, stepRunId, type, message, db.clock⟩],
    nextId := db.nextId + 1,
    clock := db.clock + 1 }

/-- Environment for outbound I/O: `fetch(url, { method })`, yielding either a
rejection message or a response status. -/
structure Env where
  fetch : String → String → Except String Nat

/-- Executor state: the database plus the in-memory `activeRuns` set. -/
structure Sys where
  db : DB
  active : List Id
deriving DecidableEq, Repr

/-- The body of the `try` block of `runNonManualStep`: DELAY sleeps and
succeeds; HTTP throws "Missing url" without a url, propagates a fetch
rejection, and throws `HTTP <status>` when `!res.ok` (`ok` is
`200 <= status < 300`); any other kind falls through and succeeds. -/
def handlerResult (env : Env) (type : StepType) (config : StepConfig) : Except String Unit :=
  match type with
  | .DELAY => .ok ()
  | .HTTP =>
    match config.url with
    | none => .error "Missing url"
    | some url =>
      match env.fetch url (config.method.getD "GET") with
      | .error e => .error e
      | .ok status =>
        if 200 ≤ status ∧ status < 300 then .ok ()
        else .error ("HTTP " ++ toString status)
  | .MANUAL => .ok ()

/-- `runNonManualStep` from `executor.ts`: StepRun to RUNNING, STEP_STARTED,
run the handler; on success StepRun to SUCCEEDED plus STEP_SUCCEEDED, on
failure StepRun to FAILED plus STEP_FAILED with the error message, then run to
FAILED plus RUN_FAILED. -/
def runNonManualStep (env : Env) (db : DB) (runId : Id) (stepRun : StepRun)
    (type : StepType) (config : StepConfig) : DB :=
  let db := updateStepRunStatus db stepRun.id .RUNNING
  let db := appendEvent db runId (some stepRun.id) .STEP_STARTED "Step started"
  match handlerResult env type config with
  | .ok _ =>
    appendEvent (updateStepRunStatus db stepRun.id .SUCCEEDED) runId (some stepRun.id)
      .STEP_SUCCEEDED "Step succeeded"
  | .error msg =>
    let db := appendEvent (updateStepRunStatus db stepRun.id .FAILED) runId (some stepRun.id)
      .STEP_FAILED ("Step failed: " ++ msg)
    appendEvent (updateRunStatus db runId .FAILED) runId none .RUN_FAILED "Run failed"

/-- The `for (const step of steps)` loop of `execute`, with the fall-through
completion after the loop. `stepRunMap` is the snapshot taken before the loop. -/
def executeLoop (env : Env) (runId : Id) (stepRunMap : Id → Option StepRun) :
    DB → List WorkflowStep → DB
  | db, [] =>
    appendEvent (updateRunStatus db runId .SUCCEEDED) runId none .RUN_SUCCEEDED "Run succeeded"
  | db, step :: rest =>
    match stepRunMap step.id with
    | none => executeLoop env runId stepRunMap db rest
    | some stepRun =>
      if stepRun.status = .SUCCEEDED then executeLoop env runId stepRunMap db rest
      else if stepRun.status = .FAILED then
        appendEvent (updateRunStatus db runId .FAILED) runId (some stepRun.id)
          .RUN_FAILED "Run already failed"
      else if step.type = .MANUAL then
        if stepRun.status = .PENDING then
          appendEvent db runId (some stepRun.id) .STEP_STARTED
            ("Manual step '" ++ step.name ++ "' awaiting completion")
        else db
      else
        let db := runNonManualStep env db runId stepRun step.type step.config
        match getRun db runId with
        | some r => if r.status = .FAILED then db else executeLoop env runId stepRunMap db rest
        | none => executeLoop env runId stepRunMap db rest

/-- `execute(runId)` from `executor.ts`: load the run and its workflow (exit if
either is absent), unconditionally set the run RUNNING and append RUN_STARTED,
then walk the steps. The source performs no check of the run's current status
before the transition. -/
def execute (env : Env) (db : DB) (runId : Id) : DB :=
  match getRun db runId with
  | none => db
  | some run =>
    match getWorkflow db run.workflowId with
    | none => db
    | some workflow =>
      let db := updateRunStatus db runId .RUNNING
      let db := appendEvent db runId none .RUN_STARTED "Run started"
      let steps := listWorkflowSteps db workflow.id
      let stepRunMap := getStepRunsMap db runId
      executeLoop env runId stepRunMap db steps

/-- `enqueueRun(runId)` from `executor.ts`: return if the run is in
`activeRuns`, else add it, run `execute`, and remove it in the `finally`. -/
def enqueueRun (env : Env) (s : Sys) (runId : Id) : Sys :=
  if s.active.contains runId then s
  else
    let db := execute env s.db runId
    ⟨db, (runId :: s.active).erase runId⟩

/-- `completeManualStep(stepRunId, success)` from `executor.ts`. -/
def completeManualStep (env : Env) (s : Sys) (stepRunId : Id) (success : Bool) :
    Sys × Except String (Option StepRun) :=
  match getStepRunById s.db stepRunId with
  | none => (s, .error "StepRun not found")
  | some stepRun =>
    if stepRun.status = .SUCCEEDED ∨ stepRun.status = .FAILED then (s, .ok (some stepRun))
    else
      let db := updateStepRunStatus s.db stepRunId (if success then .SUCCEEDED else .FAILED)
      let db := appendEvent db stepRun.workflowRunId (some stepRunId)
        (if success then .STEP_SUCCEEDED else .STEP_FAILED)
        (if success then "Manual step completed" else "Manual step failed")
      if success then
        let s1 := enqueueRun env ⟨db, s.active⟩ stepRun.workflowRunId
        (s1, .ok (getStepRunById s1.db stepRunId))
      else
        let db := updateRunStatus db stepRun.workflowRunId .FAILED
        let db := appendEvent db stepRun.workflowRunId none .RUN_FAILED "Run failed by manual step"
        (⟨db, s.active⟩, .ok (getStepRunById db stepRunId))

/-- The `startRun` resolver of the GraphQL entry file: `createRun`, append a
RUN_STARTED event with message "Run enqueued", then `enqueueRun`. -/
def startRun (env : Env) (s : Sys) (workflowId : Id) : Sys × Option WorkflowRun :=
  match createRun s.db workflowId with
  | (db, some run) =>
    let db := appendEvent db run.id none .RUN_STARTED "Run enqueued"
    (enqueueRun env ⟨db, s.active⟩ run.id, some run)
  | (db, none) => (⟨db, s.active⟩, none)

/-- The steps materialized by `insertUpdatedSteps` starting from a given
id-counter value: provided ids are kept, absent ids draw consecutive fresh
ids. -/
def materializeSteps (workflowId : Id) : Nat → List StepInput → List WorkflowStep
  | _, [] => []
  | nid, s :: rest =>
    match s.id with
    | some j =>
      ⟨j, workflowId, s.name, s.type, s.config.getD emptyConfig, s.order⟩ ::
        materializeSteps workflowId nid rest
    | none =>
      ⟨nid, workflowId, s.name, s.type, s.config.getD emptyConfig, s.order⟩ ::
        materializeSteps workflowId (nid + 1) rest

/-! ### Basic lemmas about the store operations -/

theorem find?_map_pres {α : Type} (f : α → α) (p : α → Bool) (l : List α)
    (h : ∀ a, p (f a) = p a) : (l.map f).find? p = (l.find? p).map f := by
  induction l with
  | nil => rfl
  | cons a t ih =>
    cases hp : p a with
    | true => simp [List.find?, h, hp]
    | false => simp [List.find?, h, hp, ih]

/-- Effect of `updateRunStatus` on an arbitrary `getRun` lookup. -/
theorem getRun_updateRunStatus (db : DB) (runId q : Id) (status : RunStatus) :
    getRun (updateRunStatus db runId status) q = (getRun db q).map fun r =>
      if r.id = runId then
        { r with
          status := status,
          startedAt := r.startedAt.orElse fun _ =>
            if status = .RUNNING then some db.clock else none,
          finishedAt := r.finishedAt.orElse fun _ =>
            if status = .SUCCEEDED ∨ status = .FAILED then some db.clock else none }
      else r := by
  unfold getRun updateRunStatus
  exact find?_map_pres _ _ _ fun a => by by_cases h : a.id = runId <;> simp [h]

/-- Effect of `updateStepRunStatus` on an arbitrary `getStepRunById` lookup. -/
theorem getStepRunById_updateStepRunStatus (db : DB) (stepRunId q : Id) (status : RunStatus) :
    getStepRunById (updateStepRunStatus db stepRunId status) q =
      (getStepRunById db q).map fun r =>
      if r.id = stepRunId then
        { r with
          status := status,
          startedAt := r.startedAt.orElse fun _ =>
            if status = .RUNNING then some db.clock else none,
          finishedAt := r.finishedAt.orElse fun _ =>
            if status = .SUCCEEDED ∨ status = .FAILED then some db.clock else none }
      else r := by
  unfold getStepRunById updateStepRunStatus
  exact find?_map_pres _ _ _ fun a => by by_cases h : a.id = stepRunId <;> simp [h]

@[simp] theorem updateRunStatus_stepRuns (db : DB) (runId : Id) (st : RunStatus) :
    (updateRunStatus db runId st).stepRuns = db.stepRuns := rfl

@[simp] theorem updateRunStatus_events (db : DB) (runId : Id) (st : RunStatus) :
    (updateRunStatus db runId st).events = db.events := rfl

@[simp] theorem updateStepRunStatus_events (db : DB) (srId : Id) (st : RunStatus) :
    (updateStepRunStatus db srId st).events = db.events := rfl

@[simp] theorem updateStepRunStatus_workflowRuns (db : DB) (srId : Id) (st : RunStatus) :
    (updateStepRunStatus db srId st).workflowRuns = db.workflowRuns := rfl

@[simp] theorem appendEvent_stepRuns (db : DB) (rid : Id) (srId : Option Id)
    (ty : EventType) (msg : String) :
    (appendEvent db rid srId ty msg).stepRuns = db.stepRuns := rfl

@[simp] theorem appendEvent_workflowRuns (db : DB) (rid : Id) (srId : Option Id)
    (ty : EventType) (msg : String) :
    (appendEvent db rid srId ty msg).workflowRuns = db.workflowRuns := rfl

@[simp] theorem appendEvent_events (db : DB) (rid : Id) (srId : Option Id)
    (ty : EventType) (msg : String) :
    (appendEvent db rid srId ty msg).events =
      db.events ++ [⟨db.nextId, rid, srId, ty, msg, db.clock⟩] := rfl

/-! ### Concrete scenarios, built through the public operations -/

/-- An environment whose outbound HTTP calls always return status 200. -/
def envOk : Env := ⟨fun _ _ => .ok 200⟩

/-- Scenario A: a workflow with zero steps (ids: workflow 0, run 1). -/
def dbA0 : DB := (createWorkflow emptyDB "wf" none []).1

/-- Scenario A after `startRun`: the run ends SUCCEEDED. -/
def sysA1 : Sys := (startRun envOk ⟨dbA0, []⟩ 0).1

/-- Scenario A after a second `enqueueRun` on the already-SUCCEEDED run. -/
def sysA2 : Sys := enqueueRun envOk sysA1 1

/-- Scenario B: a workflow with one MANUAL step
(ids: workflow 0, step 1, run 2, step-run 3). -/
def dbB0 : DB := (createWorkflow emptyDB "wf" none [⟨none, "approve", .MANUAL, none, 0⟩]).1

/-- Scenario B after `startRun`: the run pauses at the manual step, RUNNING. -/
def sysB1 : Sys := (startRun envOk ⟨dbB0, []⟩ 0).1

/-- Scenario B after a second `enqueueRun` on the RUNNING run. -/
def sysB2 : Sys := enqueueRun envOk sysB1 2

/-- Scenario C: `createRun` on the manual workflow without any scheduling pass
(ids: workflow 0, step 1, run 2, step-run 3); no events exist yet. -/
def dbC1 : DB := (createRun dbB0 0).1

/-- Scenario C after `completeManualStep` on the never-started step-run 3. -/
def sysC : Sys := (completeManualStep envOk ⟨dbC1, []⟩ 3 true).1

/-! ### Claim C1 -/

/-- Claim C1, counterexample: in scenario A the run is SUCCEEDED, yet a further
`enqueueRun` appends two more events (RUN_STARTED then RUN_SUCCEEDED) for that
run — the scheduling pass does not exit on a terminal status, so terminal
statuses are not absorbing. -/
theorem C1_counterexample :
    (getRun sysA1.db 1).map (fun r => r.status) = some .SUCCEEDED ∧
    sysA2.db.events.map (fun e => e.type) =
      sysA1.db.events.map (fun e => e.type) ++ [.RUN_STARTED, .RUN_SUCCEEDED] := by
  constructor
  · rfl
  · rfl

/-! ### Claim C4 -/

/-- Claim C4, counterexample: no workflow with id 7 exists in the empty
database, yet `createRun 7` succeeds (returns a run, no error) and inserts a
PENDING run row — there is no existence check and no clean failure without a
state change. -/
theorem C4_counterexample :
    getWorkflow emptyDB 7 = none ∧
    (createRun emptyDB 7).1.workflowRuns = [⟨0, 7, .PENDING, 0, none, none⟩] ∧
    (createRun emptyDB 7).2 = some ⟨0, 7, .PENDING, 0, none, none⟩ := by
  refine ⟨rfl, rfl, rfl⟩

/-! ### Claim C5 -/

/-- Claim C5: `updateRunStatus` sets `startedAt` to the current time exactly
when the new status is RUNNING and `startedAt` was null, sets `finishedAt` to
the current time exactly when the new status is terminal and `finishedAt` was
null, never overwrites a non-null timestamp, and `updateStepRunStatus` obeys
the same rules. -/
theorem C5_timestamp_rules (db : DB) (runId stepRunId : Id) (status : RunStatus) :
    (∀ run, getRun db runId = some run →
      getRun (updateRunStatus db runId status) runId = some
        { run with
          status := status,
          startedAt := if status = .RUNNING ∧ run.startedAt = none
            then some db.clock else run.startedAt,
          finishedAt := if (status = .SUCCEEDED ∨ status = .FAILED) ∧ run.finishedAt = none
            then some db.clock else run.finishedAt }) ∧
    (∀ sr, getStepRunById db stepRunId = some sr →
      getStepRunById (updateStepRunStatus db stepRunId status) stepRunId = some
        { sr with
          status := status,
          startedAt := if status = .RUNNING ∧ sr.startedAt = none
            then some db.clock else sr.startedAt,
          finishedAt := if (status = .SUCCEEDED ∨ status = .FAILED) ∧ sr.finishedAt = none
            then some db.clock else sr.finishedAt }) := by
  constructor
  · intro run hrun
    have hid : run.id = runId := by
      have := List.find?_some hrun
      simpa using this
    rw [getRun_updateRunStatus, hrun]
    simp only [Option.map_some']
    rw [if_pos hid]
    cases status <;> cases run.startedAt <;> cases run.finishedAt <;> rfl
  · intro sr hsr
    have hid : sr.id = stepRunId := by
      have := List.find?_some hsr
      simpa using this
    rw [getStepRunById_updateStepRunStatus, hsr]
    simp only [Option.map_some']
    rw [if_pos hid]
    cases status <;> cases sr.startedAt <;> cases sr.finishedAt <;> rfl

/-- A one-run, one-step-run database used by witnesses. -/
def runW : WorkflowRun := ⟨0, 0, .PENDING, 0, none, none⟩

def stepRunW : StepRun := ⟨1, 0, 0, .PENDING, none, none⟩

def dbW : DB := ⟨[], [], [runW], [stepRunW], [], 2, 10⟩

/-- Witness for C5: moving the pending run of `dbW` to RUNNING stamps
`startedAt` with the clock, and moving its pending step-run to SUCCEEDED
stamps `finishedAt`. -/
theorem C5_timestamp_rules_witness :
    getRun (updateRunStatus dbW 0 .RUNNING) 0 =
      some { runW with status := .RUNNING, startedAt := some 10 } ∧
    getStepRunById (updateStepRunStatus dbW 1 .SUCCEEDED) 1 =
      some { stepRunW with status := .SUCCEEDED, finishedAt := some 10 } := by
  constructor
  · have h := (C5_timestamp_rules dbW 0 1 .RUNNING).1 runW rfl
    simpa [runW, dbW] using h
  · have h := (C5_timestamp_rules dbW 0 1 .SUCCEEDED).2 stepRunW rfl
    simpa [stepRunW, dbW] using h

/-! ### Claim C7 -/

/-- Claim C7: `enqueueRun` is idempotent with respect to the active set — when
the run is already active it returns the state unchanged (no task, no state
change); otherwise exactly one scheduling pass runs and the run id is removed
from the active set when it returns, leaving the active set as before. -/
theorem C7_enqueue_idempotent (env : Env) (s : Sys) (runId : Id) :
    (s.active.contains runId = true → enqueueRun env s runId = s) ∧
    (s.active.contains runId = false →
      (enqueueRun env s runId).db = execute env s.db runId ∧
      (enqueueRun env s runId).active = s.active) := by
  constructor
  · intro h
    unfold enqueueRun
    rw [h]
    simp
  · intro h
    unfold enqueueRun
    rw [h]
    simp

/-- Witness for C7: enqueueing an already-active run id changes nothing, and
enqueueing on an empty active set leaves the active set empty afterwards. -/
theorem C7_enqueue_idempotent_witness :
    enqueueRun envOk ⟨emptyDB, [5]⟩ 5 = ⟨emptyDB, [5]⟩ ∧
    (enqueueRun envOk ⟨emptyDB, []⟩ 5).active = [] :=
  ⟨(C7_enqueue_idempotent envOk ⟨emptyDB, [5]⟩ 5).1 rfl,
   ((C7_enqueue_idempotent envOk ⟨emptyDB, []⟩ 5).2 rfl).2⟩

theorem append_two {α : Type} (a : List α) (x y : α) :
    (a ++ [x]) ++ [y] = a ++ x :: [y] := by simp

theorem append_three {α : Type} (a : List α) (x y z : α) :
    ((a ++ [x]) ++ [y]) ++ [z] = a ++ x :: [y, z] := by simp

/-! ### The event log only ever grows -/

/-- `db2` extends `db1` by appending events (the event table is append-only). -/
def EventsExtend (db1 db2 : DB) : Prop :=
  ∃ t, db2.events = db1.events ++ t

theorem eventsExtend_refl (db : DB) : EventsExtend db db :=
  ⟨[], by simp⟩

theorem eventsExtend_trans {a b c : DB} (h1 : EventsExtend a b) (h2 : EventsExtend b c) :
    EventsExtend a c := by
  obtain ⟨t1, ht1⟩ := h1
  obtain ⟨t2, ht2⟩ := h2
  exact ⟨t1 ++ t2, by rw [ht2, ht1, List.append_assoc]⟩

theorem eventsExtend_appendEvent (db : DB) (rid : Id) (srId : Option Id)
    (ty : EventType) (msg : String) : EventsExtend db (appendEvent db rid srId ty msg) :=
  ⟨_, rfl⟩

theorem eventsExtend_updateRunStatus (db : DB) (rid : Id) (st : RunStatus) :
    EventsExtend db (updateRunStatus db rid st) :=
  ⟨[], by simp⟩

theorem eventsExtend_updateStepRunStatus (db : DB) (srId : Id) (st : RunStatus) :
    EventsExtend db (updateStepRunStatus db srId st) :=
  ⟨[], by simp⟩

theorem runNonManualStep_extends (env : Env) (db : DB) (runId : Id) (sr : StepRun)
    (ty : StepType) (cfg : StepConfig) :
    EventsExtend db (runNonManualStep env db runId sr ty cfg) := by
  unfold runNonManualStep
  cases h : handlerResult env ty cfg with
  | ok u =>
    simp only [h]
    exact eventsExtend_trans (eventsExtend_trans
      (eventsExtend_trans (eventsExtend_updateStepRunStatus ..) (eventsExtend_appendEvent ..))
      (eventsExtend_updateStepRunStatus ..)) (eventsExtend_appendEvent ..)
  | error msg =>
    simp only [h]
    exact eventsExtend_trans (eventsExtend_trans (eventsExtend_trans
      (eventsExtend_trans (eventsExtend_trans
        (eventsExtend_updateStepRunStatus ..) (eventsExtend_appendEvent ..))
        (eventsExtend_updateStepRunStatus ..)) (eventsExtend_appendEvent ..))
      (eventsExtend_updateRunStatus ..)) (eventsExtend_appendEvent ..)

theorem executeLoop_extends (env : Env) (runId : Id) (m : Id → Option StepRun) :
    ∀ (steps : List WorkflowStep) (db : DB),
      EventsExtend db (executeLoop env runId m db steps) := by
  intro steps
  induction steps with
  | nil =>
    intro db
    exact eventsExtend_trans (eventsExtend_updateRunStatus ..) (eventsExtend_appendEvent ..)
  | cons step rest ih =>
    intro db
    unfold executeLoop
    cases hm : m step.id with
    | none => exact ih db
    | some sr =>
      simp only
      by_cases h1 : sr.status = RunStatus.SUCCEEDED
      · simp only [h1, if_pos rfl]
        exact ih db
      · rw [if_neg h1]
        by_cases h2 : sr.status = RunStatus.FAILED
        · rw [if_pos h2]
          exact eventsExtend_trans (eventsExtend_updateRunStatus ..) (eventsExtend_appendEvent ..)
        · rw [if_neg h2]
          by_cases h3 : step.type = StepType.MANUAL
          · rw [if_pos h3]
            by_cases h4 : sr.status = RunStatus.PENDING
            · rw [if_pos h4]
              exact eventsExtend_appendEvent ..
            · rw [if_neg h4]
              exact eventsExtend_refl db
          · rw [if_neg h3]
            have hrns := runNonManualStep_extends env db runId sr step.type step.config
            cases hr : getRun (runNonManualStep env db runId sr step.type step.config) runId with
            | none =>
              dsimp only
              exact eventsExtend_trans hrns (ih _)
            | some r =>
              dsimp only
              by_cases h5 : r.status = RunStatus.FAILED
              · simp only [h5, if_pos rfl]
                exact hrns
              · rw [if_neg h5]
                exact eventsExtend_trans hrns (ih _)

theorem execute_extends (env : Env) (db : DB) (runId : Id) :
    EventsExtend db (execute env db runId) := by
  unfold execute
  cases hr : getRun db runId with
  | none => exact eventsExtend_refl db
  | some run =>
    dsimp only
    cases hw : getWorkflow db run.workflowId with
    | none => exact eventsExtend_refl db
    | some wf =>
      dsimp only
      exact eventsExtend_trans (eventsExtend_trans
        (eventsExtend_updateRunStatus ..) (eventsExtend_appendEvent ..))
        (executeLoop_extends ..)

/-- Whenever `execute` finds the run and its workflow — with no condition
whatsoever on the run's current status — it appends a RUN_STARTED event. -/
theorem execute_appends_run_started (env : Env) (db : DB) (runId : Id)
    (run : WorkflowRun) (wf : Workflow)
    (hrun : getRun db runId = some run)
    (hwf : getWorkflow db run.workflowId = some wf) :
    ∃ t, (execute env db runId).events =
      db.events ++ ⟨db.nextId, runId, none, .RUN_STARTED, "Run started", db.clock + 1⟩ :: t := by
  unfold execute
  rw [hrun]
  dsimp only
  rw [hwf]
  dsimp only
  have hloop := executeLoop_extends env runId
    (getStepRunsMap (appendEvent (updateRunStatus db runId .RUNNING) runId none
      .RUN_STARTED "Run started") runId)
    (listWorkflowSteps (appendEvent (updateRunStatus db runId .RUNNING) runId none
      .RUN_STARTED "Run started") wf.id)
    (appendEvent (updateRunStatus db runId .RUNNING) runId none .RUN_STARTED "Run started")
  obtain ⟨t, ht⟩ := hloop
  refine ⟨t, ?_⟩
  rw [ht]
  show (db.events ++ [⟨db.nextId, runId, none, .RUN_STARTED, "Run started", db.clock + 1⟩]) ++ t =
    db.events ++ ⟨db.nextId, runId, none, .RUN_STARTED, "Run started", db.clock + 1⟩ :: t
  simp [List.append_assoc]

/-! ### Claim C1, continued (amended statement) -/

/-- Claim C1, amended: terminal run statuses are NOT absorbing. `execute`
performs no terminal-status check: a scheduling pass started by `enqueue` on a
run whose status is SUCCEEDED or FAILED (run and workflow present, run not
active) proceeds, overwrites the run status and appends a RUN_STARTED event —
it does not exit without mutating; only a missing run or workflow makes the
pass exit immediately. -/
theorem C1_amended (env : Env) (s : Sys) (runId : Id) (run : WorkflowRun) (wf : Workflow)
    (hact : s.active.contains runId = false)
    (hrun : getRun s.db runId = some run)
    (_hterm : run.status = .SUCCEEDED ∨ run.status = .FAILED)
    (hwf : getWorkflow s.db run.workflowId = some wf) :
    ∃ e t, (enqueueRun env s runId).db.events = s.db.events ++ e :: t ∧
      e.type = .RUN_STARTED ∧ e.workflowRunId = runId ∧ e.message = "Run started" := by
  have hdb : (enqueueRun env s runId).db = execute env s.db runId := by
    unfold enqueueRun
    rw [hact]
    simp
  rw [hdb]
  obtain ⟨t, ht⟩ := execute_appends_run_started env s.db runId run wf hrun hwf
  exact ⟨_, t, ht, rfl, rfl, rfl⟩

/-- The run of scenario A after it completed. -/
def runA : WorkflowRun := ⟨1, 0, .SUCCEEDED, 1, some 3, some 5⟩

/-- The zero-step workflow of scenario A. -/
def wfA : Workflow := ⟨0, "wf", none, 0, []⟩

/-- Witness for the amended C1: enqueueing the SUCCEEDED run of scenario A
appends a RUN_STARTED event. -/
theorem C1_amended_witness :
    ∃ e t, (enqueueRun envOk sysA1 1).db.events = sysA1.db.events ++ e :: t ∧
      e.type = .RUN_STARTED ∧ e.workflowRunId = 1 ∧ e.message = "Run started" :=
  C1_amended envOk sysA1 1 runA wfA rfl rfl (Or.inl rfl) rfl

/-! ### Claim C2 -/

/-- Claim C2, counterexample: in scenario B the run paused at the manual step
with status RUNNING (not PENDING), yet a further scheduling pass appends
another RUN_STARTED (and another manual STEP_STARTED) — contradicting that
RUN_STARTED is appended only when the run is still PENDING. -/
theorem C2_counterexample :
    (getRun sysB1.db 2).map (fun r => r.status) = some .RUNNING ∧
    sysB2.db.events.map (fun e => e.type) =
      sysB1.db.events.map (fun e => e.type) ++ [.RUN_STARTED, .STEP_STARTED] :=
  ⟨rfl, rfl⟩

/-- Claim C2, amended: a scheduling pass that finds the run and its workflow
unconditionally transitions the run to RUNNING and appends a RUN_STARTED
event, whatever the run's current status; in particular a resumption pass over
a run already RUNNING appends a further RUN_STARTED. -/
theorem C2_amended (env : Env) (s : Sys) (runId : Id) (run : WorkflowRun) (wf : Workflow)
    (hact : s.active.contains runId = false)
    (hrun : getRun s.db runId = some run)
    (_hrunning : run.status = .RUNNING)
    (hwf : getWorkflow s.db run.workflowId = some wf) :
    ∃ e t, (enqueueRun env s runId).db.events = s.db.events ++ e :: t ∧
      e.type = .RUN_STARTED ∧ e.workflowRunId = runId ∧ e.message = "Run started" := by
  have hdb : (enqueueRun env s runId).db = execute env s.db runId := by
    unfold enqueueRun
    rw [hact]
    simp
  rw [hdb]
  obtain ⟨t, ht⟩ := execute_appends_run_started env s.db runId run wf hrun hwf
  exact ⟨_, t, ht, rfl, rfl, rfl⟩

/-- The run of scenario B while paused at its manual step. -/
def runB : WorkflowRun := ⟨2, 0, .RUNNING, 1, some 3, none⟩

/-- The one-manual-step workflow of scenario B. -/
def wfB : Workflow := ⟨0, "wf", none, 0, [⟨1, 0, "approve", .MANUAL, emptyConfig, 0⟩]⟩

/-- Witness for the amended C2: re-enqueueing the RUNNING run of scenario B
appends a RUN_STARTED event. -/
theorem C2_amended_witness :
    ∃ e t, (enqueueRun envOk sysB1 2).db.events = sysB1.db.events ++ e :: t ∧
      e.type = .RUN_STARTED ∧ e.workflowRunId = 2 ∧ e.message = "Run started" :=
  C2_amended envOk sysB1 2 runB wfB rfl rfl rfl rfl

/-! ### Claim C3 -/

/-- Claim C3, counterexample: in scenario C the run has no events at all, and
`completeManualStep` on its never-started step-run 3 appends a STEP_SUCCEEDED
for step-run 3 although no STEP_STARTED for it exists anywhere in the run's
event sequence (the resulting events are STEP_SUCCEEDED, RUN_STARTED,
RUN_SUCCEEDED and contain no STEP_STARTED). -/
theorem C3_counterexample :
    dbC1.events = [] ∧
    sysC.db.events.map (fun e => (e.type, e.stepRunId)) =
      [(.STEP_SUCCEEDED, some 3), (.RUN_STARTED, none), (.RUN_SUCCEEDED, none)] ∧
    (getStepRunById sysC.db 3).map (fun r => r.status) = some .SUCCEEDED :=
  ⟨rfl, rfl, rfl⟩

/-- Claim C3, amended: completion events appended by the automated-step path
(`runNonManualStep`) are always preceded, among the newly appended events, by
a STEP_STARTED for the same step-run; but `completeManualStep` appends a
STEP_SUCCEEDED/STEP_FAILED for any existing non-terminal StepRun without
requiring any prior STEP_STARTED, so a completion event for a step the
scheduler has not reached can lack a preceding STEP_STARTED. -/
theorem C3_amended :
    (∀ (env : Env) (db : DB) (runId : Id) (sr : StepRun) (ty : StepType) (cfg : StepConfig),
      ∃ e t, (runNonManualStep env db runId sr ty cfg).events = db.events ++ e :: t ∧
        e.type = .STEP_STARTED ∧ e.stepRunId = some sr.id ∧
        ∀ e2 ∈ t, (e2.type = .STEP_SUCCEEDED ∨ e2.type = .STEP_FAILED) →
          e2.stepRunId = some sr.id) ∧
    (∀ (env : Env) (s : Sys) (stepRunId : Id) (success : Bool) (sr : StepRun),
      getStepRunById s.db stepRunId = some sr →
      ¬(sr.status = .SUCCEEDED ∨ sr.status = .FAILED) →
      ∃ e, e ∈ (completeManualStep env s stepRunId success).1.db.events ∧
        e.type = (if success then .STEP_SUCCEEDED else .STEP_FAILED) ∧
        e.stepRunId = some stepRunId) := by
  constructor
  · intro env db runId sr ty cfg
    unfold runNonManualStep
    cases h : handlerResult env ty cfg with
    | ok u =>
      simp only [h]
      refine ⟨_, _, append_two .., rfl, rfl, ?_⟩
      intro e2 he2 _
      simp only [List.mem_singleton] at he2
      subst he2
      rfl
    | error msg =>
      simp only [h]
      refine ⟨_, _, append_three .., rfl, rfl, ?_⟩
      intro e2 he2 hty
      simp only [List.mem_cons, List.not_mem_nil, or_false] at he2
      rcases he2 with he2 | he2
      · subst he2
        rfl
      · subst he2
        rcases hty with hty | hty <;> simp at hty
  · intro env s stepRunId success sr hsr hterm
    unfold completeManualStep
    rw [hsr]
    simp only [hterm, if_neg, ite_false]
    by_cases hs : success = true
    · subst hs
      simp only [if_pos rfl]
      set db2 := appendEvent (updateStepRunStatus s.db stepRunId .SUCCEEDED)
        sr.workflowRunId (some stepRunId) .STEP_SUCCEEDED "Manual step completed" with hdb2
      have hmem : (⟨(updateStepRunStatus s.db stepRunId .SUCCEEDED).nextId, sr.workflowRunId,
          some stepRunId, .STEP_SUCCEEDED, "Manual step completed",
          (updateStepRunStatus s.db stepRunId .SUCCEEDED).clock⟩ : Event) ∈ db2.events := by
        rw [hdb2]
        simp [appendEvent]
      have hext : EventsExtend db2 (enqueueRun env ⟨db2, s.active⟩ sr.workflowRunId).db := by
        unfold enqueueRun
        by_cases ha : s.active.contains sr.workflowRunId
        · simp only [ha, if_pos rfl]
          exact eventsExtend_refl _
        · rw [Bool.not_eq_true] at ha
          rw [ha]
          simp only [Bool.false_eq_true, if_false]
          exact execute_extends ..
      obtain ⟨t, ht⟩ := hext
      refine ⟨⟨(updateStepRunStatus s.db stepRunId .SUCCEEDED).nextId, sr.workflowRunId,
        some stepRunId, .STEP_SUCCEEDED, "Manual step completed",
        (updateStepRunStatus s.db stepRunId .SUCCEEDED).clock⟩, ?_, rfl, rfl⟩
      show _ ∈ (enqueueRun env ⟨db2, s.active⟩ sr.workflowRunId).db.events
      rw [ht]
      exact List.mem_append_left _ hmem
    · rw [Bool.not_eq_true] at hs
      subst hs
      simp only [Bool.false_eq_true, if_false]
      refine ⟨⟨(updateStepRunStatus s.db stepRunId .FAILED).nextId, sr.workflowRunId,
        some stepRunId, .STEP_FAILED, "Manual step failed",
        (updateStepRunStatus s.db stepRunId .FAILED).clock⟩, ?_, rfl, rfl⟩
      simp [appendEvent]

/-- The step-run of scenario C before completion. -/
def srC : StepRun := ⟨3, 2, 1, .PENDING, none, none⟩

/-- Witness for the amended C3: a DELAY pass on the witness database starts
with STEP_STARTED, and `completeManualStep` in scenario C appends a
STEP_SUCCEEDED for step-run 3 with no STEP_STARTED precondition. -/
theorem C3_amended_witness :
    (∃ e t, (runNonManualStep envOk dbW 0 stepRunW .DELAY emptyConfig).events =
        dbW.events ++ e :: t ∧
        e.type = .STEP_STARTED ∧ e.stepRunId = some stepRunW.id ∧
        ∀ e2 ∈ t, (e2.type = .STEP_SUCCEEDED ∨ e2.type = .STEP_FAILED) →
          e2.stepRunId = some stepRunW.id) ∧
    (∃ e, e ∈ (completeManualStep envOk ⟨dbC1, []⟩ 3 true).1.db.events ∧
      e.type = (if true then EventType.STEP_SUCCEEDED else EventType.STEP_FAILED) ∧
      e.stepRunId = some 3) :=
  ⟨C3_amended.1 envOk dbW 0 stepRunW .DELAY emptyConfig,
   C3_amended.2 envOk ⟨dbC1, []⟩ 3 true srC rfl (by decide)⟩

/-! ### createRun characterization -/

theorem find?_append_none {α : Type} (p : α → Bool) (l1 l2 : List α)
    (h : l1.find? p = none) : (l1 ++ l2).find? p = l2.find? p := by
  induction l1 with
  | nil => rfl
  | cons a t ih =>
    cases hp : p a with
    | true =>
      simp only [List.find?, hp] at h
      exact Option.noConfusion h
    | false =>
      simp only [List.cons_append, List.find?, hp] at h ⊢
      exact ih h

theorem insertStepRuns_workflowRuns (rid : Id) :
    ∀ (steps : List WorkflowStep) (db : DB),
      (insertStepRuns rid db steps).workflowRuns = db.workflowRuns := by
  intro steps
  induction steps with
  | nil => intro db; rfl
  | cons s rest ih => intro db; exact ih _

theorem insertStepRuns_spec (rid : Id) :
    ∀ (steps : List WorkflowStep) (db : DB),
      ∃ new, (insertStepRuns rid db steps).stepRuns = db.stepRuns ++ new ∧
        new.map (fun r => r.workflowStepId) = steps.map (fun s => s.id) ∧
        ∀ r ∈ new, r.workflowRunId = rid ∧ r.status = .PENDING ∧
          r.startedAt = none ∧ r.finishedAt = none := by
  intro steps
  induction steps with
  | nil =>
    intro db
    exact ⟨[], by simp [insertStepRuns], rfl, by simp⟩
  | cons s rest ih =>
    intro db
    obtain ⟨new, hnew, hmapeq, hall⟩ := ih
      { db with
        stepRuns := db.stepRuns ++ [⟨db.nextId, rid, s.id, .PENDING, none, none⟩],
        nextId := db.nextId + 1 }
    refine ⟨⟨db.nextId, rid, s.id, .PENDING, none, none⟩ :: new, ?_, ?_, ?_⟩
    · show (insertStepRuns rid _ rest).stepRuns = _
      rw [hnew]
      simp [List.append_assoc]
    · simp [hmapeq]
    · intro r hr
      rcases List.mem_cons.mp hr with hr | hr
      · subst hr
        exact ⟨rfl, rfl, rfl, rfl⟩
      · exact hall r hr

/-- Claim C4, amended: `createRun(workflowId)` performs no existence check on
the workflow (and foreign keys are not enforced): it always inserts one
PENDING WorkflowRun with fresh id and the current timestamp — even when no
workflow with that id exists, in which case zero StepRuns are created — plus
one PENDING StepRun per step of the workflow, and returns the new run. -/
theorem C4_amended (db : DB) (workflowId : Id) :
    (createRun db workflowId).1.workflowRuns =
      db.workflowRuns ++ [⟨db.nextId, workflowId, .PENDING, db.clock, none, none⟩] ∧
    (∃ new, (createRun db workflowId).1.stepRuns = db.stepRuns ++ new ∧
      new.map (fun r => r.workflowStepId) =
        (listWorkflowSteps db workflowId).map (fun s => s.id) ∧
      ∀ r ∈ new, r.workflowRunId = db.nextId ∧ r.status = .PENDING ∧
        r.startedAt = none ∧ r.finishedAt = none) ∧
    ((∀ r ∈ db.workflowRuns, r.id < db.nextId) →
      (createRun db workflowId).2 =
        some ⟨db.nextId, workflowId, .PENDING, db.clock, none, none⟩) := by
  refine ⟨?_, ?_, ?_⟩
  · show (insertStepRuns db.nextId _ _).workflowRuns = _
    rw [insertStepRuns_workflowRuns]
  · show ∃ new, (insertStepRuns db.nextId _ _).stepRuns = _ ∧ _
    exact insertStepRuns_spec ..
  · intro hfresh
    show getRun (insertStepRuns db.nextId _ _) db.nextId = _
    unfold getRun
    rw [insertStepRuns_workflowRuns]
    rw [find?_append_none]
    · simp [List.find?]
    · rw [List.find?_eq_none]
      intro r hr
      have h2 := hfresh r hr
      intro hcontra
      rw [beq_iff_eq] at hcontra
      exact absurd hcontra (Nat.ne_of_lt h2)

/-- Witness for the amended C4: `createRun` on the manual-workflow database of
scenario B creates run 2 with one PENDING StepRun for its single step. -/
theorem C4_amended_witness :
    (createRun dbB0 0).2 = some ⟨2, 0, .PENDING, 1, none, none⟩ ∧
    (createRun dbB0 0).1.workflowRuns = dbB0.workflowRuns ++ [⟨2, 0, .PENDING, 1, none, none⟩] :=
  ⟨(C4_amended dbB0 0).2.2 (by decide), (C4_amended dbB0 0).1⟩

/-! ### A step-run that is terminal everywhere stays untouched by the scheduler -/

theorem getStepRunById_appendEvent (db : DB) (rid : Id) (srId : Option Id)
    (ty : EventType) (msg : String) (x : Id) :
    getStepRunById (appendEvent db rid srId ty msg) x = getStepRunById db x := rfl

theorem getStepRunById_updateRunStatus (db : DB) (rid : Id) (st : RunStatus) (x : Id) :
    getStepRunById (updateRunStatus db rid st) x = getStepRunById db x := rfl

theorem getStepRunById_update_other (db : DB) (x y : Id) (st : RunStatus) (hxy : x ≠ y) :
    getStepRunById (updateStepRunStatus db y st) x = getStepRunById db x := by
  rw [getStepRunById_updateStepRunStatus]
  cases h : getStepRunById db x with
  | none => rfl
  | some r =>
    have hid : r.id = x := by simpa using List.find?_some h
    have hne : ¬(r.id = y) := fun hc => hxy (by rw [← hid]; exact hc)
    simp only [Option.map_some']
    rw [if_neg hne]

/-- Every row of the step-run table carrying id `x` is in a terminal status. -/
def TerminalAt (db : DB) (x : Id) : Prop :=
  ∀ r ∈ db.stepRuns, r.id = x → r.status = .SUCCEEDED ∨ r.status = .FAILED

theorem terminalAt_updateStepRunStatus_self (db : DB) (x : Id) (st : RunStatus)
    (hst : st = .SUCCEEDED ∨ st = .FAILED) :
    TerminalAt (updateStepRunStatus db x st) x := by
  intro r hr hid
  simp only [updateStepRunStatus] at hr
  obtain ⟨r0, hr0, rfl⟩ := List.mem_map.mp hr
  by_cases h0 : r0.id = x
  · rw [if_pos h0]
    exact hst
  · rw [if_neg h0] at hid
    exact absurd hid h0

theorem runNonManualStep_preserves (env : Env) (db : DB) (runId : Id) (sr : StepRun)
    (ty : StepType) (cfg : StepConfig) (x : Id) (hx : x ≠ sr.id) :
    getStepRunById (runNonManualStep env db runId sr ty cfg) x = getStepRunById db x := by
  unfold runNonManualStep
  cases h : handlerResult env ty cfg with
  | ok u =>
    simp only [h]
    rw [getStepRunById_appendEvent, getStepRunById_update_other _ _ _ _ hx,
        getStepRunById_appendEvent, getStepRunById_update_other _ _ _ _ hx]
  | error msg =>
    simp only [h]
    rw [getStepRunById_appendEvent, getStepRunById_updateRunStatus,
        getStepRunById_appendEvent, getStepRunById_update_other _ _ _ _ hx,
        getStepRunById_appendEvent, getStepRunById_update_other _ _ _ _ hx]

theorem executeLoop_preserves (env : Env) (runId : Id) (m : Id → Option StepRun) (x : Id)
    (hm : ∀ i sr, m i = some sr → sr.id = x →
      sr.status = .SUCCEEDED ∨ sr.status = .FAILED) :
    ∀ (steps : List WorkflowStep) (db : DB),
      getStepRunById (executeLoop env runId m db steps) x = getStepRunById db x := by
  intro steps
  induction steps with
  | nil => intro db; rfl
  | cons step rest ih =>
    intro db
    unfold executeLoop
    cases hmm : m step.id with
    | none => exact ih db
    | some sr =>
      dsimp only
      by_cases h1 : sr.status = RunStatus.SUCCEEDED
      · rw [if_pos h1]
        exact ih db
      · rw [if_neg h1]
        by_cases h2 : sr.status = RunStatus.FAILED
        · rw [if_pos h2]
          rfl
        · rw [if_neg h2]
          by_cases h3 : step.type = StepType.MANUAL
          · rw [if_pos h3]
            by_cases h4 : sr.status = RunStatus.PENDING
            · rw [if_pos h4]
              rfl
            · rw [if_neg h4]
          · rw [if_neg h3]
            have hx : x ≠ sr.id := by
              intro hcontra
              rcases hm step.id sr hmm hcontra.symm with h | h
              · exact h1 h
              · exact h2 h
            have hpres := runNonManualStep_preserves env db runId sr step.type step.config x hx
            cases hr : getRun (runNonManualStep env db runId sr step.type step.config) runId with
            | none =>
              dsimp only
              rw [ih _, hpres]
            | some r =>
              dsimp only
              by_cases h5 : r.status = RunStatus.FAILED
              · rw [if_pos h5]
                exact hpres
              · rw [if_neg h5]
                rw [ih _, hpres]

theorem execute_preserves (env : Env) (db : DB) (runId : Id) (x : Id)
    (h : TerminalAt db x) :
    getStepRunById (execute env db runId) x = getStepRunById db x := by
  unfold execute
  cases hr : getRun db runId with
  | none => rfl
  | some run =>
    dsimp only
    cases hw : getWorkflow db run.workflowId with
    | none => rfl
    | some wf =>
      dsimp only
      have hm : ∀ i sr,
          getStepRunsMap (appendEvent (updateRunStatus db runId .RUNNING) runId none
            .RUN_STARTED "Run started") runId i = some sr →
          sr.id = x → sr.status = .SUCCEEDED ∨ sr.status = .FAILED := by
        intro i sr hi hid
        have h1 := List.mem_of_find?_eq_some hi
        rw [List.mem_reverse] at h1
        have h2 : sr ∈ db.stepRuns := (List.mem_filter.mp h1).1
        exact h sr h2 hid
      rw [executeLoop_preserves env runId _ x hm]
      rfl

theorem enqueueRun_preserves (env : Env) (s : Sys) (runId : Id) (x : Id)
    (h : TerminalAt s.db x) :
    getStepRunById (enqueueRun env s runId).db x = getStepRunById s.db x := by
  unfold enqueueRun
  by_cases ha : s.active.contains runId
  · rw [if_pos ha]
  · rw [Bool.not_eq_true] at ha
    rw [ha]
    simp only [Bool.false_eq_true, if_false]
    exact execute_preserves env s.db runId x h

/-! ### The two completion branches of completeManualStep, as equations -/

theorem completeManualStep_success_eq (env : Env) (s : Sys) (stepRunId : Id) (sr : StepRun)
    (hsr : getStepRunById s.db stepRunId = some sr)
    (hterm : ¬(sr.status = .SUCCEEDED ∨ sr.status = .FAILED)) :
    completeManualStep env s stepRunId true =
      (enqueueRun env
        ⟨appendEvent (updateStepRunStatus s.db stepRunId .SUCCEEDED) sr.workflowRunId
          (some stepRunId) .STEP_SUCCEEDED "Manual step completed", s.active⟩
        sr.workflowRunId,
       .ok (getStepRunById (enqueueRun env
        ⟨appendEvent (updateStepRunStatus s.db stepRunId .SUCCEEDED) sr.workflowRunId
          (some stepRunId) .STEP_SUCCEEDED "Manual step completed", s.active⟩
        sr.workflowRunId).db stepRunId)) := by
  unfold completeManualStep
  rw [hsr]
  dsimp only
  rw [if_neg hterm]
  rfl

theorem completeManualStep_failure_eq (env : Env) (s : Sys) (stepRunId : Id) (sr : StepRun)
    (hsr : getStepRunById s.db stepRunId = some sr)
    (hterm : ¬(sr.status = .SUCCEEDED ∨ sr.status = .FAILED)) :
    completeManualStep env s stepRunId false =
      (⟨appendEvent (updateRunStatus (appendEvent (updateStepRunStatus s.db stepRunId .FAILED)
          sr.workflowRunId (some stepRunId) .STEP_FAILED "Manual step failed")
          sr.workflowRunId .FAILED) sr.workflowRunId none .RUN_FAILED "Run failed by manual step",
        s.active⟩,
       .ok (getStepRunById (appendEvent (updateRunStatus
          (appendEvent (updateStepRunStatus s.db stepRunId .FAILED)
            sr.workflowRunId (some stepRunId) .STEP_FAILED "Manual step failed")
          sr.workflowRunId .FAILED) sr.workflowRunId none .RUN_FAILED "Run failed by manual step")
          stepRunId)) := by
  unfold completeManualStep
  rw [hsr]
  dsimp only
  rw [if_neg hterm]
  rfl

/-! ### Claim C6 -/

/-- Claim C6: `completeManualStep` is idempotent on terminal StepRuns — on a
StepRun already SUCCEEDED or FAILED it returns the StepRun unchanged, touching
nothing; and calling it twice with the same arguments returns the same result
with no state change (hence no additional events) on the second call. -/
theorem C6_complete_manual_idempotent (env : Env) (s : Sys) (stepRunId : Id) (success : Bool) :
    (∀ sr, getStepRunById s.db stepRunId = some sr →
      sr.status = .SUCCEEDED ∨ sr.status = .FAILED →
      completeManualStep env s stepRunId success = (s, .ok (some sr))) ∧
    completeManualStep env (completeManualStep env s stepRunId success).1 stepRunId success =
      completeManualStep env s stepRunId success := by
  constructor
  · intro sr hsr hterm
    unfold completeManualStep
    rw [hsr]
    dsimp only
    rw [if_pos hterm]
  · cases hlook : getStepRunById s.db stepRunId with
    | none =>
      have h1 : completeManualStep env s stepRunId success = (s, .error "StepRun not found") := by
        unfold completeManualStep
        rw [hlook]
      rw [h1]
      show completeManualStep env s stepRunId success = _
      exact h1
    | some sr =>
      have hid : sr.id = stepRunId := by
        simpa using List.find?_some hlook
      by_cases hterm : sr.status = .SUCCEEDED ∨ sr.status = .FAILED
      · have h1 : completeManualStep env s stepRunId success = (s, .ok (some sr)) := by
          unfold completeManualStep
          rw [hlook]
          dsimp only
          rw [if_pos hterm]
        rw [h1]
        show completeManualStep env s stepRunId success = _
        exact h1
      · cases success with
        | true =>
          have h1 := completeManualStep_success_eq env s stepRunId sr hlook hterm
          have hta : TerminalAt (appendEvent (updateStepRunStatus s.db stepRunId .SUCCEEDED)
              sr.workflowRunId (some stepRunId) .STEP_SUCCEEDED "Manual step completed")
              stepRunId :=
            terminalAt_updateStepRunStatus_self s.db stepRunId .SUCCEEDED (Or.inl rfl)
          have hpres := enqueueRun_preserves env
            ⟨appendEvent (updateStepRunStatus s.db stepRunId .SUCCEEDED) sr.workflowRunId
              (some stepRunId) .STEP_SUCCEEDED "Manual step completed", s.active⟩
            sr.workflowRunId stepRunId hta
          have hafter : ∃ sr1, getStepRunById (appendEvent
              (updateStepRunStatus s.db stepRunId .SUCCEEDED) sr.workflowRunId
              (some stepRunId) .STEP_SUCCEEDED "Manual step completed") stepRunId = some sr1 ∧
              sr1.status = .SUCCEEDED := by
            rw [getStepRunById_appendEvent, getStepRunById_updateStepRunStatus, hlook]
            simp only [Option.map_some']
            refine ⟨_, rfl, ?_⟩
            rw [if_pos hid]
          obtain ⟨sr1, hsr1, hstat1⟩ := hafter
          have hlookup1 : getStepRunById (enqueueRun env
              ⟨appendEvent (updateStepRunStatus s.db stepRunId .SUCCEEDED) sr.workflowRunId
                (some stepRunId) .STEP_SUCCEEDED "Manual step completed", s.active⟩
              sr.workflowRunId).db stepRunId = some sr1 := by
            rw [hpres]
            exact hsr1
          have h2 : completeManualStep env (enqueueRun env
              ⟨appendEvent (updateStepRunStatus s.db stepRunId .SUCCEEDED) sr.workflowRunId
                (some stepRunId) .STEP_SUCCEEDED "Manual step completed", s.active⟩
              sr.workflowRunId) stepRunId true = (enqueueRun env
              ⟨appendEvent (updateStepRunStatus s.db stepRunId .SUCCEEDED) sr.workflowRunId
                (some stepRunId) .STEP_SUCCEEDED "Manual step completed", s.active⟩
              sr.workflowRunId, .ok (some sr1)) := by
            unfold completeManualStep
            rw [hlookup1]
            dsimp only
            rw [if_pos (Or.inl hstat1)]
          rw [h1]
          show completeManualStep env (enqueueRun env _ _) stepRunId true = _
          rw [h2, hlookup1]
        | false =>
          have h1 := completeManualStep_failure_eq env s stepRunId sr hlook hterm
          have hafter : ∃ sr1, getStepRunById (appendEvent (updateRunStatus
              (appendEvent (updateStepRunStatus s.db stepRunId .FAILED)
                sr.workflowRunId (some stepRunId) .STEP_FAILED "Manual step failed")
              sr.workflowRunId .FAILED) sr.workflowRunId none .RUN_FAILED
              "Run failed by manual step") stepRunId = some sr1 ∧
              sr1.status = .FAILED := by
            rw [getStepRunById_appendEvent, getStepRunById_updateRunStatus,
              getStepRunById_appendEvent, getStepRunById_updateStepRunStatus, hlook]
            simp only [Option.map_some']
            refine ⟨_, rfl, ?_⟩
            rw [if_pos hid]
          obtain ⟨sr1, hsr1, hstat1⟩ := hafter
          have h2 : completeManualStep env (⟨appendEvent (updateRunStatus
              (appendEvent (updateStepRunStatus s.db stepRunId .FAILED)
                sr.workflowRunId (some stepRunId) .STEP_FAILED "Manual step failed")
              sr.workflowRunId .FAILED) sr.workflowRunId none .RUN_FAILED
              "Run failed by manual step", s.active⟩ : Sys) stepRunId false =
              (⟨appendEvent (updateRunStatus
                (appendEvent (updateStepRunStatus s.db stepRunId .FAILED)
                  sr.workflowRunId (some stepRunId) .STEP_FAILED "Manual step failed")
                sr.workflowRunId .FAILED) sr.workflowRunId none .RUN_FAILED
                "Run failed by manual step", s.active⟩, .ok (some sr1)) := by
            unfold completeManualStep
            rw [hsr1]
            dsimp only
            rw [if_pos (Or.inr hstat1)]
          rw [h1]
          show completeManualStep env _ stepRunId false = _
          rw [h2, hsr1]

/-- A database holding a single already-SUCCEEDED step-run. -/
def dbT : DB := ⟨[], [], [], [⟨4, 9, 9, .SUCCEEDED, none, none⟩], [], 5, 0⟩

/-- Witness for C6: completing the already-terminal step-run of `dbT` returns it
unchanged, and in scenario C a second identical call to `completeManualStep`
reproduces the first call's result with no state change. -/
theorem C6_complete_manual_idempotent_witness :
    completeManualStep envOk ⟨dbT, []⟩ 4 true =
      (⟨dbT, []⟩, .ok (some ⟨4, 9, 9, .SUCCEEDED, none, none⟩)) ∧
    completeManualStep envOk (completeManualStep envOk ⟨dbC1, []⟩ 3 true).1 3 true =
      completeManualStep envOk ⟨dbC1, []⟩ 3 true :=
  ⟨(C6_complete_manual_idempotent envOk ⟨dbT, []⟩ 4 true).1
      ⟨4, 9, 9, .SUCCEEDED, none, none⟩ rfl (Or.inl rfl),
   (C6_complete_manual_idempotent envOk ⟨dbC1, []⟩ 3 true).2⟩

theorem enqueueRun_extends (env : Env) (s : Sys) (runId : Id) :
    EventsExtend s.db (enqueueRun env s runId).db := by
  unfold enqueueRun
  by_cases ha : s.active.contains runId
  · rw [if_pos ha]
    exact eventsExtend_refl _
  · rw [Bool.not_eq_true] at ha
    rw [ha]
    simp only [Bool.false_eq_true, if_false]
    exact execute_extends ..

/-! ### Claim C10 -/

/-- Claim C10: `completeManualStep` never consults the step's kind or whether
the step is awaiting completion — for any existing StepRun whose status is
PENDING or RUNNING (whatever kind of step it belongs to), the call transitions
it to SUCCEEDED or FAILED per the flag, appends the corresponding completion
event, and on success enqueues the owning run. -/
theorem C10_complete_any_step (env : Env) (s : Sys) (stepRunId : Id) (success : Bool)
    (sr : StepRun)
    (hsr : getStepRunById s.db stepRunId = some sr)
    (hpr : sr.status = .PENDING ∨ sr.status = .RUNNING) :
    ∃ sr1, (completeManualStep env s stepRunId success).2 = .ok (some sr1) ∧
      getStepRunById (completeManualStep env s stepRunId success).1.db stepRunId = some sr1 ∧
      sr1.status = (if success then .SUCCEEDED else .FAILED) ∧
      sr1.id = stepRunId ∧ sr1.workflowRunId = sr.workflowRunId ∧
      (∃ e, e ∈ (completeManualStep env s stepRunId success).1.db.events ∧
        e.type = (if success then .STEP_SUCCEEDED else .STEP_FAILED) ∧
        e.stepRunId = some stepRunId ∧
        e.message = (if success then "Manual step completed" else "Manual step failed")) ∧
      (success = true →
        (completeManualStep env s stepRunId success).1 =
          enqueueRun env
            ⟨appendEvent (updateStepRunStatus s.db stepRunId .SUCCEEDED) sr.workflowRunId
              (some stepRunId) .STEP_SUCCEEDED "Manual step completed", s.active⟩
            sr.workflowRunId) := by
  have hid : sr.id = stepRunId := by
    simpa using List.find?_some hsr
  have hterm : ¬(sr.status = .SUCCEEDED ∨ sr.status = .FAILED) := by
    rcases hpr with h | h <;> rw [h] <;> decide
  cases success with
  | true =>
    have h1 := completeManualStep_success_eq env s stepRunId sr hsr hterm
    have hta : TerminalAt (appendEvent (updateStepRunStatus s.db stepRunId .SUCCEEDED)
        sr.workflowRunId (some stepRunId) .STEP_SUCCEEDED "Manual step completed") stepRunId :=
      terminalAt_updateStepRunStatus_self s.db stepRunId .SUCCEEDED (Or.inl rfl)
    have hpres := enqueueRun_preserves env
      ⟨appendEvent (updateStepRunStatus s.db stepRunId .SUCCEEDED) sr.workflowRunId
        (some stepRunId) .STEP_SUCCEEDED "Manual step completed", s.active⟩
      sr.workflowRunId stepRunId hta
    have hafter : ∃ sr1, getStepRunById (appendEvent
        (updateStepRunStatus s.db stepRunId .SUCCEEDED) sr.workflowRunId
        (some stepRunId) .STEP_SUCCEEDED "Manual step completed") stepRunId = some sr1 ∧
        sr1.status = .SUCCEEDED ∧ sr1.id = sr.id ∧ sr1.workflowRunId = sr.workflowRunId := by
      rw [getStepRunById_appendEvent, getStepRunById_updateStepRunStatus, hsr]
      simp only [Option.map_some']
      refine ⟨_, rfl, ?_, ?_, ?_⟩ <;> rw [if_pos hid]
    obtain ⟨sr1, hsr1, hstat1, hid1, hwr1⟩ := hafter
    have hlookup1 : getStepRunById (enqueueRun env
        ⟨appendEvent (updateStepRunStatus s.db stepRunId .SUCCEEDED) sr.workflowRunId
          (some stepRunId) .STEP_SUCCEEDED "Manual step completed", s.active⟩
        sr.workflowRunId).db stepRunId = some sr1 := by
      rw [hpres]
      exact hsr1
    have hmem : (⟨(updateStepRunStatus s.db stepRunId .SUCCEEDED).nextId, sr.workflowRunId,
        some stepRunId, .STEP_SUCCEEDED, "Manual step completed",
        (updateStepRunStatus s.db stepRunId .SUCCEEDED).clock⟩ : Event) ∈
        (appendEvent (updateStepRunStatus s.db stepRunId .SUCCEEDED) sr.workflowRunId
          (some stepRunId) .STEP_SUCCEEDED "Manual step completed").events := by
      simp [appendEvent]
    obtain ⟨t, ht⟩ := enqueueRun_extends env
      ⟨appendEvent (updateStepRunStatus s.db stepRunId .SUCCEEDED) sr.workflowRunId
        (some stepRunId) .STEP_SUCCEEDED "Manual step completed", s.active⟩
      sr.workflowRunId
    rw [h1]
    refine ⟨sr1, ?_, hlookup1, hstat1, hid1.trans hid, hwr1, ?_, fun _ => rfl⟩
    · show Except.ok _ = _
      rw [hlookup1]
    · refine ⟨⟨(updateStepRunStatus s.db stepRunId .SUCCEEDED).nextId, sr.workflowRunId,
        some stepRunId, .STEP_SUCCEEDED, "Manual step completed",
        (updateStepRunStatus s.db stepRunId .SUCCEEDED).clock⟩, ?_, rfl, rfl, rfl⟩
      show _ ∈ (enqueueRun env _ _).db.events
      rw [ht]
      exact List.mem_append_left _ hmem
  | false =>
    have h1 := completeManualStep_failure_eq env s stepRunId sr hsr hterm
    have hafter : ∃ sr1, getStepRunById (appendEvent (updateRunStatus
        (appendEvent (updateStepRunStatus s.db stepRunId .FAILED)
          sr.workflowRunId (some stepRunId) .STEP_FAILED "Manual step failed")
        sr.workflowRunId .FAILED) sr.workflowRunId none .RUN_FAILED
        "Run failed by manual step") stepRunId = some sr1 ∧
        sr1.status = .FAILED ∧ sr1.id = sr.id ∧ sr1.workflowRunId = sr.workflowRunId := by
      rw [getStepRunById_appendEvent, getStepRunById_updateRunStatus,
        getStepRunById_appendEvent, getStepRunById_updateStepRunStatus, hsr]
      simp only [Option.map_some']
      refine ⟨_, rfl, ?_, ?_, ?_⟩ <;> rw [if_pos hid]
    obtain ⟨sr1, hsr1, hstat1, hid1, hwr1⟩ := hafter
    rw [h1]
    refine ⟨sr1, ?_, hsr1, hstat1, hid1.trans hid, hwr1, ?_, ?_⟩
    · show Except.ok _ = _
      rw [hsr1]
    · refine ⟨⟨(updateStepRunStatus s.db stepRunId .FAILED).nextId, sr.workflowRunId,
        some stepRunId, .STEP_FAILED, "Manual step failed",
        (updateStepRunStatus s.db stepRunId .FAILED).clock⟩, ?_, rfl, rfl, rfl⟩
      simp [appendEvent]
    · intro hcontra
      exact Bool.noConfusion hcontra

/-- Witness for C10: in scenario C, completing the PENDING manual step-run 3
succeeds it, appends a STEP_SUCCEEDED for it, and enqueues run 2. -/
theorem C10_complete_any_step_witness :
    ∃ sr1, (completeManualStep envOk ⟨dbC1, []⟩ 3 true).2 = .ok (some sr1) ∧
      getStepRunById (completeManualStep envOk ⟨dbC1, []⟩ 3 true).1.db 3 = some sr1 ∧
      sr1.status = (if true then RunStatus.SUCCEEDED else RunStatus.FAILED) ∧
      sr1.id = 3 ∧ sr1.workflowRunId = srC.workflowRunId ∧
      (∃ e, e ∈ (completeManualStep envOk ⟨dbC1, []⟩ 3 true).1.db.events ∧
        e.type = (if true then EventType.STEP_SUCCEEDED else EventType.STEP_FAILED) ∧
        e.stepRunId = some 3 ∧
        e.message = (if true then "Manual step completed" else "Manual step failed")) ∧
      (true = true →
        (completeManualStep envOk ⟨dbC1, []⟩ 3 true).1 =
          enqueueRun envOk
            ⟨appendEvent (updateStepRunStatus dbC1 3 .SUCCEEDED) srC.workflowRunId
              (some 3) .STEP_SUCCEEDED "Manual step completed", []⟩
            srC.workflowRunId) :=
  C10_complete_any_step envOk ⟨dbC1, []⟩ 3 true srC rfl (Or.inl rfl)

/-! ### Claim C8 -/

theorem getRun_appendEvent (db : DB) (rid : Id) (srId : Option Id)
    (ty : EventType) (msg : String) (x : Id) :
    getRun (appendEvent db rid srId ty msg) x = getRun db x := rfl

theorem getRun_updateStepRunStatus (db : DB) (srId : Id) (st : RunStatus) (x : Id) :
    getRun (updateStepRunStatus db srId st) x = getRun db x := rfl

theorem getStepRunById_update_self (db : DB) (x : Id) (st : RunStatus) (sr0 : StepRun)
    (h : getStepRunById db x = some sr0) :
    ∃ r, getStepRunById (updateStepRunStatus db x st) x = some r ∧ r.status = st := by
  have hid : sr0.id = x := by simpa using List.find?_some h
  rw [getStepRunById_updateStepRunStatus, h]
  simp only [Option.map_some']
  refine ⟨_, rfl, ?_⟩
  rw [if_pos hid]

theorem getRun_update_self (db : DB) (x : Id) (st : RunStatus) (r0 : WorkflowRun)
    (h : getRun db x = some r0) :
    ∃ r, getRun (updateRunStatus db x st) x = some r ∧ r.status = st := by
  have hid : r0.id = x := by simpa using List.find?_some h
  rw [getRun_updateRunStatus, h]
  simp only [Option.map_some']
  refine ⟨_, rfl, ?_⟩
  rw [if_pos hid]

/-- Claim C8: when the HTTP handler fails — the url is missing, or the
response status is not 2xx — `runNonManualStep` transitions the StepRun to
FAILED, appends a STEP_FAILED event whose message carries the failure
description (including the numeric status code for a non-2xx response),
transitions the run to FAILED, and appends a RUN_FAILED event. -/
theorem C8_http_failure (env : Env) (db : DB) (runId : Id) (sr : StepRun)
    (cfg : StepConfig) (run0 : WorkflowRun) (sr0 : StepRun)
    (hrun : getRun db runId = some run0)
    (hsr0 : getStepRunById db sr.id = some sr0) :
    (cfg.url = none →
      (∃ r, getStepRunById (runNonManualStep env db runId sr .HTTP cfg) sr.id = some r ∧
        r.status = .FAILED) ∧
      (∃ r, getRun (runNonManualStep env db runId sr .HTTP cfg) runId = some r ∧
        r.status = .FAILED) ∧
      (∃ e1 e2 e3, (runNonManualStep env db runId sr .HTTP cfg).events =
        db.events ++ [e1, e2, e3] ∧
        e1.type = .STEP_STARTED ∧ e1.stepRunId = some sr.id ∧
        e2.type = .STEP_FAILED ∧ e2.stepRunId = some sr.id ∧
        e2.message = "Step failed: " ++ "Missing url" ∧
        e3.type = .RUN_FAILED ∧ e3.workflowRunId = runId ∧ e3.message = "Run failed")) ∧
    (∀ u st, cfg.url = some u →
      env.fetch u (cfg.method.getD "GET") = .ok st →
      ¬(200 ≤ st ∧ st < 300) →
      (∃ r, getStepRunById (runNonManualStep env db runId sr .HTTP cfg) sr.id = some r ∧
        r.status = .FAILED) ∧
      (∃ r, getRun (runNonManualStep env db runId sr .HTTP cfg) runId = some r ∧
        r.status = .FAILED) ∧
      (∃ e1 e2 e3, (runNonManualStep env db runId sr .HTTP cfg).events =
        db.events ++ [e1, e2, e3] ∧
        e1.type = .STEP_STARTED ∧ e1.stepRunId = some sr.id ∧
        e2.type = .STEP_FAILED ∧ e2.stepRunId = some sr.id ∧
        e2.message = "Step failed: " ++ ("HTTP " ++ toString st) ∧
        (∃ a b, e2.message.data = a ++ (toString st).data ++ b) ∧
        e3.type = .RUN_FAILED ∧ e3.workflowRunId = runId ∧ e3.message = "Run failed")) := by
  constructor
  · intro hurl
    have hh : handlerResult env .HTTP cfg = .error "Missing url" := by
      unfold handlerResult
      rw [hurl]
    have hrw : runNonManualStep env db runId sr .HTTP cfg =
        appendEvent (updateRunStatus (appendEvent (updateStepRunStatus
          (appendEvent (updateStepRunStatus db sr.id .RUNNING) runId (some sr.id)
            .STEP_STARTED "Step started")
          sr.id .FAILED) runId (some sr.id) .STEP_FAILED ("Step failed: " ++ "Missing url"))
          runId .FAILED) runId none .RUN_FAILED "Run failed" := by
      unfold runNonManualStep
      rw [hh]
    rw [hrw]
    refine ⟨?_, ?_, ?_⟩
    · rw [getStepRunById_appendEvent, getStepRunById_updateRunStatus,
        getStepRunById_appendEvent]
      obtain ⟨r2, hr2, _⟩ := getStepRunById_update_self db sr.id .RUNNING sr0 hsr0
      have hr2a : getStepRunById (appendEvent (updateStepRunStatus db sr.id .RUNNING)
          runId (some sr.id) .STEP_STARTED "Step started") sr.id = some r2 := hr2
      exact getStepRunById_update_self _ sr.id .FAILED r2 hr2a
    · rw [getRun_appendEvent]
      have hrunX : getRun (appendEvent (updateStepRunStatus
          (appendEvent (updateStepRunStatus db sr.id .RUNNING) runId (some sr.id)
            .STEP_STARTED "Step started")
          sr.id .FAILED) runId (some sr.id) .STEP_FAILED
          ("Step failed: " ++ "Missing url")) runId = some run0 := hrun
      exact getRun_update_self _ runId .FAILED run0 hrunX
    · exact ⟨_, _, _, append_three .., rfl, rfl, rfl, rfl, rfl, rfl, rfl, rfl⟩
  · intro u st hurl hfetch hok
    have hh : handlerResult env .HTTP cfg = .error ("HTTP " ++ toString st) := by
      unfold handlerResult
      rw [hurl]
      dsimp only
      rw [hfetch]
      dsimp only
      rw [if_neg hok]
    have hrw : runNonManualStep env db runId sr .HTTP cfg =
        appendEvent (updateRunStatus (appendEvent (updateStepRunStatus
          (appendEvent (updateStepRunStatus db sr.id .RUNNING) runId (some sr.id)
            .STEP_STARTED "Step started")
          sr.id .FAILED) runId (some sr.id) .STEP_FAILED
          ("Step failed: " ++ ("HTTP " ++ toString st)))
          runId .FAILED) runId none .RUN_FAILED "Run failed" := by
      unfold runNonManualStep
      rw [hh]
    rw [hrw]
    refine ⟨?_, ?_, ?_⟩
    · rw [getStepRunById_appendEvent, getStepRunById_updateRunStatus,
        getStepRunById_appendEvent]
      obtain ⟨r2, hr2, _⟩ := getStepRunById_update_self db sr.id .RUNNING sr0 hsr0
      have hr2a : getStepRunById (appendEvent (updateStepRunStatus db sr.id .RUNNING)
          runId (some sr.id) .STEP_STARTED "Step started") sr.id = some r2 := hr2
      exact getStepRunById_update_self _ sr.id .FAILED r2 hr2a
    · rw [getRun_appendEvent]
      have hrunX : getRun (appendEvent (updateStepRunStatus
          (appendEvent (updateStepRunStatus db sr.id .RUNNING) runId (some sr.id)
            .STEP_STARTED "Step started")
          sr.id .FAILED) runId (some sr.id) .STEP_FAILED
          ("Step failed: " ++ ("HTTP " ++ toString st))) runId = some run0 := hrun
      exact getRun_update_self _ runId .FAILED run0 hrunX
    · refine ⟨_, _, _, append_three .., rfl, rfl, rfl, rfl, rfl, ?_, rfl, rfl, rfl⟩
      refine ⟨("Step failed: " ++ "HTTP ").data, [], ?_⟩
      simp [String.data_append, List.append_assoc]

/-- An environment whose outbound HTTP calls always return status 500. -/
def env500 : Env := ⟨fun _ _ => .ok 500⟩

/-- Witness for C8: on the witness database, an HTTP step with no url fails
with "Missing url", and one whose fetch returns 500 fails with a message
carrying the status code; both FAIL the step-run and the run. -/
theorem C8_http_failure_witness :
    ((∃ r, getStepRunById (runNonManualStep env500 dbW 0 stepRunW .HTTP emptyConfig)
        stepRunW.id = some r ∧ r.status = .FAILED) ∧
      (∃ r, getRun (runNonManualStep env500 dbW 0 stepRunW .HTTP emptyConfig) 0 = some r ∧
        r.status = .FAILED) ∧
      (∃ e1 e2 e3, (runNonManualStep env500 dbW 0 stepRunW .HTTP emptyConfig).events =
        dbW.events ++ [e1, e2, e3] ∧
        e1.type = .STEP_STARTED ∧ e1.stepRunId = some stepRunW.id ∧
        e2.type = .STEP_FAILED ∧ e2.stepRunId = some stepRunW.id ∧
        e2.message = "Step failed: " ++ "Missing url" ∧
        e3.type = .RUN_FAILED ∧ e3.workflowRunId = 0 ∧ e3.message = "Run failed")) ∧
    ((∃ r, getStepRunById (runNonManualStep env500 dbW 0 stepRunW .HTTP
        ⟨some "u", none, none⟩) stepRunW.id = some r ∧ r.status = .FAILED) ∧
      (∃ r, getRun (runNonManualStep env500 dbW 0 stepRunW .HTTP
        ⟨some "u", none, none⟩) 0 = some r ∧ r.status = .FAILED) ∧
      (∃ e1 e2 e3, (runNonManualStep env500 dbW 0 stepRunW .HTTP
          ⟨some "u", none, none⟩).events =
        dbW.events ++ [e1, e2, e3] ∧
        e1.type = .STEP_STARTED ∧ e1.stepRunId = some stepRunW.id ∧
        e2.type = .STEP_FAILED ∧ e2.stepRunId = some stepRunW.id ∧
        e2.message = "Step failed: " ++ ("HTTP " ++ toString 500) ∧
        (∃ a b, e2.message.data = a ++ (toString 500).data ++ b) ∧
        e3.type = .RUN_FAILED ∧ e3.workflowRunId = 0 ∧ e3.message = "Run failed")) :=
  ⟨(C8_http_failure env500 dbW 0 stepRunW emptyConfig runW stepRunW rfl rfl).1 rfl,
   (C8_http_failure env500 dbW 0 stepRunW ⟨some "u", none, none⟩ runW stepRunW rfl rfl).2
     "u" 500 rfl rfl (by decide)⟩

/-! ### Claim C9 -/

theorem insertUpdatedSteps_ok (wid : Id) :
    ∀ (steps : List StepInput) (db : DB),
      (∀ t ∈ db.workflowSteps, t.id < db.nextId) →
      (∀ s ∈ steps, ∀ j, s.id = some j →
        j < db.nextId ∧ ∀ t ∈ db.workflowSteps, t.id ≠ j) →
      (steps.filterMap StepInput.id).Nodup →
      ∃ db3, insertUpdatedSteps wid db steps = .ok db3 ∧
        db3.workflowSteps = db.workflowSteps ++ materializeSteps wid db.nextId steps ∧
        db3.workflows = db.workflows := by
  intro steps
  induction steps with
  | nil =>
    intro db _ _ _
    exact ⟨db, rfl, by simp [materializeSteps], rfl⟩
  | cons s rest ih =>
    intro db h1 h2 h3
    cases hsid : s.id with
    | some j =>
      obtain ⟨hjlt, hjnot⟩ := h2 s (List.mem_cons_self s rest) j hsid
      have hcheck : (db.workflowSteps.any fun t => t.id == j) = false := by
        rw [List.any_eq_false]
        intro t ht
        simp only [beq_iff_eq]
        exact hjnot t ht
      rw [List.filterMap_cons_some hsid] at h3
      obtain ⟨hnotin, h3t⟩ := List.nodup_cons.mp h3
      obtain ⟨db3, heq, hws, hwf⟩ := ih
        { db with workflowSteps := db.workflowSteps ++
            [⟨j, wid, s.name, s.type, s.config.getD emptyConfig, s.order⟩] }
        (by
          intro t ht
          rcases List.mem_append.mp ht with ht | ht
          · exact h1 t ht
          · rw [List.mem_singleton] at ht
            subst ht
            exact hjlt)
        (by
          intro s2 hs2 j2 hj2
          obtain ⟨hlt2, hnot2⟩ := h2 s2 (List.mem_cons_of_mem s hs2) j2 hj2
          refine ⟨hlt2, ?_⟩
          intro t ht
          rcases List.mem_append.mp ht with ht | ht
          · exact hnot2 t ht
          · rw [List.mem_singleton] at ht
            subst ht
            intro hcontra
            have hj2mem : j2 ∈ rest.filterMap StepInput.id :=
              List.mem_filterMap.mpr ⟨s2, hs2, hj2⟩
            have hj : (j : Id) = j2 := hcontra
            exact hnotin (by rw [hj]; exact hj2mem))
        h3t
      refine ⟨db3, ?_, ?_, hwf⟩
      · show insertUpdatedSteps wid db (s :: rest) = .ok db3
        simp only [insertUpdatedSteps, hsid, hcheck, Bool.false_eq_true, if_false]
        exact heq
      · rw [hws]
        simp only [materializeSteps, hsid]
        simp [List.append_assoc]
    | none =>
      have hcheck : (db.workflowSteps.any fun t => t.id == db.nextId) = false := by
        rw [List.any_eq_false]
        intro t ht
        simp only [beq_iff_eq]
        exact Nat.ne_of_lt (h1 t ht)
      rw [List.filterMap_cons_none hsid] at h3
      obtain ⟨db3, heq, hws, hwf⟩ := ih
        { db with
          workflowSteps := db.workflowSteps ++
            [⟨db.nextId, wid, s.name, s.type, s.config.getD emptyConfig, s.order⟩],
          nextId := db.nextId + 1 }
        (by
          intro t ht
          rcases List.mem_append.mp ht with ht | ht
          · exact Nat.lt_succ_of_lt (h1 t ht)
          · rw [List.mem_singleton] at ht
            subst ht
            exact Nat.lt_succ_self _)
        (by
          intro s2 hs2 j2 hj2
          obtain ⟨hlt2, hnot2⟩ := h2 s2 (List.mem_cons_of_mem s hs2) j2 hj2
          refine ⟨Nat.lt_succ_of_lt hlt2, ?_⟩
          intro t ht
          rcases List.mem_append.mp ht with ht | ht
          · exact hnot2 t ht
          · rw [List.mem_singleton] at ht
            subst ht
            exact (Nat.ne_of_lt hlt2).symm)
        h3
      refine ⟨db3, ?_, ?_, hwf⟩
      · show insertUpdatedSteps wid db (s :: rest) = .ok db3
        simp only [insertUpdatedSteps, hsid, hcheck, Bool.false_eq_true, if_false]
        exact heq
      · rw [hws]
        simp only [materializeSteps, hsid]
        simp [List.append_assoc]

theorem materializeSteps_orders (wid : Id) :
    ∀ (steps : List StepInput) (nid : Nat),
      (materializeSteps wid nid steps).map (fun st => st.order) =
        steps.map (fun s => s.order) := by
  intro steps
  induction steps with
  | nil => intro nid; rfl
  | cons s rest ih =>
    intro nid
    cases hsid : s.id with
    | some j => simp [materializeSteps, hsid, ih]
    | none => simp [materializeSteps, hsid, ih]

theorem materializeSteps_workflowId (wid : Id) :
    ∀ (steps : List StepInput) (nid : Nat) (st : WorkflowStep),
      st ∈ materializeSteps wid nid steps → st.workflowId = wid := by
  intro steps
  induction steps with
  | nil =>
    intro nid st h
    simp [materializeSteps] at h
  | cons s rest ih =>
    intro nid st h
    cases hsid : s.id with
    | some j =>
      simp only [materializeSteps, hsid] at h
      rcases List.mem_cons.mp h with h | h
      · subst h
        rfl
      · exact ih _ _ h
    | none =>
      simp only [materializeSteps, hsid] at h
      rcases List.mem_cons.mp h with h | h
      · subst h
        rfl
      · exact ih _ _ h

theorem materializeSteps_correspond (wid : Id) :
    ∀ (steps : List StepInput) (nid n0 : Nat), n0 ≤ nid →
      List.Forall₂ (fun (inp : StepInput) (st : WorkflowStep) =>
        st.workflowId = wid ∧ st.name = inp.name ∧ st.type = inp.type ∧
        st.config = inp.config.getD emptyConfig ∧ st.order = inp.order ∧
        (∀ j, inp.id = some j → st.id = j) ∧ (inp.id = none → n0 ≤ st.id))
        steps (materializeSteps wid nid steps) := by
  intro steps
  induction steps with
  | nil =>
    intro nid n0 h
    exact List.Forall₂.nil
  | cons s rest ih =>
    intro nid n0 h
    cases hsid : s.id with
    | some j =>
      have hred : materializeSteps wid nid (s :: rest) =
          ⟨j, wid, s.name, s.type, s.config.getD emptyConfig, s.order⟩ ::
            materializeSteps wid nid rest := by
        simp only [materializeSteps, hsid]
      rw [hred]
      refine List.Forall₂.cons ⟨rfl, rfl, rfl, rfl, rfl, ?_, ?_⟩ (ih nid n0 h)
      · intro j2 hj
        rw [hsid] at hj
        exact Option.some.inj hj
      · intro hnone
        rw [hsid] at hnone
        exact Option.noConfusion hnone
    | none =>
      have hred : materializeSteps wid nid (s :: rest) =
          ⟨nid, wid, s.name, s.type, s.config.getD emptyConfig, s.order⟩ ::
            materializeSteps wid (nid + 1) rest := by
        simp only [materializeSteps, hsid]
      rw [hred]
      refine List.Forall₂.cons ⟨rfl, rfl, rfl, rfl, rfl, ?_, ?_⟩
        (ih (nid + 1) n0 (Nat.le_trans h (Nat.le_succ nid)))
      · intro j2 hj
        rw [hsid] at hj
        exact Option.noConfusion hj
      · intro _
        exact h

theorem sortByOrder_sorted_id :
    ∀ l : List WorkflowStep,
      List.Pairwise (fun (a b : WorkflowStep) => a.order < b.order) l →
      sortByOrder l = l := by
  intro l
  induction l with
  | nil => intro _; rfl
  | cons s ss ih =>
    intro h
    obtain ⟨hhead, htail⟩ := List.pairwise_cons.mp h
    unfold sortByOrder
    rw [ih htail]
    cases ss with
    | nil => rfl
    | cons t ts =>
      unfold insertByOrder
      rw [if_neg]
      exact not_lt.mpr (le_of_lt (hhead t (List.mem_cons_self t ts)))

theorem getWorkflow_of_find? (db3 : DB) (wid : Id) (row3 : WorkflowRow)
    (hf : db3.workflows.find? (fun w => w.id == wid) = some row3) :
    getWorkflow db3 wid = some ⟨row3.id, row3.name, row3.description, row3.createdAt,
      listWorkflowSteps db3 wid⟩ := by
  unfold getWorkflow
  rw [hf]
  rfl

/-- Step inputs with distinct order values but a duplicated provided id. -/
def dupSteps : List StepInput :=
  [⟨some 1, "a", .MANUAL, none, 0⟩, ⟨some 1, "b", .MANUAL, none, 1⟩]

/-- Claim C9, counterexample: `dupSteps` has distinct order values yet carries
the provided id 1 twice, so on scenario B's workflow the second INSERT
violates the `workflow_steps.id` PRIMARY KEY: `updateWorkflow` fails with the
UNIQUE-constraint error, the transaction rolls back leaving the database
unchanged, and `getWorkflow` still yields the old single step — not the
provided two-step sequence. -/
theorem C9_counterexample :
    (dupSteps.map (fun s => s.order)).Nodup ∧
    getWorkflow dbB0 0 = some wfB ∧
    (updateWorkflow dbB0 0 none none dupSteps).2 =
      .error "UNIQUE constraint failed: workflow_steps.id" ∧
    (updateWorkflow dbB0 0 none none dupSteps).1 = dbB0 ∧
    listWorkflowSteps (updateWorkflow dbB0 0 none none dupSteps).1 0 =
      [⟨1, 0, "approve", .MANUAL, emptyConfig, 0⟩] ∧
    dupSteps.length = 2 :=
  ⟨by decide, rfl, rfl, rfl, rfl, rfl⟩

/-- Claim C9, amended: on an existing workflow, and provided the supplied step
ids do not collide with the `workflow_steps.id` PRIMARY KEY — every id already
in the table is an earlier-generated one, each provided id is an
earlier-generated id used, if at all, only by this workflow's own steps, and
no provided id appears twice — `updateWorkflow` succeeds and `getWorkflow`
then yields exactly the provided steps: the stored sequence is the provided
list arranged by its `order` values, each element verbatim in semantic content
(name, kind, config, order), steps carrying an id keep it and steps without
one receive a fresh id; when the provided list is given in strictly ascending
`order` (so orders are distinct), the result is the provided sequence itself,
in the provided order. Without the id conditions the INSERT throws a
UNIQUE-constraint error and the transaction rolls back (see the
counterexample). -/
theorem C9_update_get_roundtrip (db : DB) (wid : Id) (name : Option String)
    (descr : Option String) (steps : List StepInput) (w0 : Workflow)
    (hw : getWorkflow db wid = some w0)
    (hfresh : ∀ t ∈ db.workflowSteps, t.id < db.nextId)
    (hprov : ∀ j ∈ steps.filterMap StepInput.id,
      j < db.nextId ∧ ∀ t ∈ db.workflowSteps, t.id = j → t.workflowId = wid)
    (hids : (steps.filterMap StepInput.id).Nodup) :
    ∃ w, (updateWorkflow db wid name descr steps).2 = .ok (some w) ∧
      w.steps = sortByOrder (materializeSteps wid db.nextId steps) ∧
      List.Forall₂ (fun (inp : StepInput) (st : WorkflowStep) =>
        st.workflowId = wid ∧ st.name = inp.name ∧ st.type = inp.type ∧
        st.config = inp.config.getD emptyConfig ∧ st.order = inp.order ∧
        (∀ j, inp.id = some j → st.id = j) ∧ (inp.id = none → db.nextId ≤ st.id))
        steps (materializeSteps wid db.nextId steps) ∧
      (List.Pairwise (fun (a b : StepInput) => a.order < b.order) steps →
        w.steps = materializeSteps wid db.nextId steps) := by
  obtain ⟨row0, hrow0⟩ : ∃ row0, db.workflows.find? (fun w => w.id == wid) = some row0 := by
    unfold getWorkflow at hw
    cases hf : db.workflows.find? (fun w => w.id == wid) with
    | none =>
      rw [hf] at hw
      exact Option.noConfusion hw
    | some row0 => exact ⟨row0, rfl⟩
  unfold updateWorkflow
  rw [hw]
  dsimp only
  obtain ⟨db3, heq, hws, hwf⟩ := insertUpdatedSteps_ok wid steps
    { db with
      workflows := db.workflows.map fun (w : WorkflowRow) =>
        if w.id = wid then
          { w with name := name.getD w0.name,
                   description := descr.orElse fun _ => w0.description }
        else w,
      workflowSteps := db.workflowSteps.filter fun s => !(s.workflowId == wid) }
    (by
      intro t ht
      exact hfresh t (List.mem_filter.mp ht).1)
    (by
      intro s hs j hj
      obtain ⟨hlt, hwid⟩ := hprov j (List.mem_filterMap.mpr ⟨s, hs, hj⟩)
      refine ⟨hlt, ?_⟩
      intro t ht hcontra
      obtain ⟨htm, htf⟩ := List.mem_filter.mp ht
      have h2 := hwid t htm hcontra
      rw [h2] at htf
      simp at htf)
    hids
  rw [heq]
  dsimp only
  have hfind3 : db3.workflows.find? (fun w => w.id == wid) =
      some (if row0.id = wid then
        { row0 with name := name.getD w0.name,
                    description := descr.orElse fun _ => w0.description }
      else row0) := by
    rw [hwf]
    show (db.workflows.map fun (w : WorkflowRow) =>
        if w.id = wid then
          { w with name := name.getD w0.name,
                   description := descr.orElse fun _ => w0.description }
        else w).find? (fun w => w.id == wid) = _
    rw [find?_map_pres _ _ _ (fun a => by by_cases h : a.id = wid <;> simp [h])]
    rw [hrow0]
    rfl
  have hlist : listWorkflowSteps db3 wid =
      sortByOrder (materializeSteps wid db.nextId steps) := by
    unfold listWorkflowSteps
    rw [hws]
    show sortByOrder (((db.workflowSteps.filter fun s => !(s.workflowId == wid)) ++
      materializeSteps wid db.nextId steps).filter fun s => s.workflowId == wid) = _
    rw [List.filter_append]
    have h1 : (db.workflowSteps.filter fun s => !(s.workflowId == wid)).filter
        (fun s => s.workflowId == wid) = [] := by
      rw [List.filter_eq_nil_iff]
      intro a ha
      have h2 := (List.mem_filter.mp ha).2
      simp at h2
      simp [h2]
    have h2 : (materializeSteps wid db.nextId steps).filter
        (fun s => s.workflowId == wid) = materializeSteps wid db.nextId steps := by
      rw [List.filter_eq_self]
      intro a ha
      rw [materializeSteps_workflowId wid steps db.nextId a ha]
      simp
    rw [h1, h2, List.nil_append]
  have hgw := getWorkflow_of_find? db3 wid _ hfind3
  obtain ⟨w3, hgw3, hstepsw3⟩ : ∃ w3, getWorkflow db3 wid = some w3 ∧
      w3.steps = listWorkflowSteps db3 wid := ⟨_, hgw, rfl⟩
  refine ⟨w3, ?_, ?_, ?_, ?_⟩
  · show Except.ok (getWorkflow db3 wid) = _
    rw [hgw3]
  · rw [hstepsw3]
    exact hlist
  · exact materializeSteps_correspond wid steps db.nextId db.nextId (Nat.le_refl _)
  · intro hpw
    have h1 : (steps.map (fun s => s.order)).Pairwise (fun a b => a < b) :=
      List.pairwise_map.mpr hpw
    rw [← materializeSteps_orders wid steps db.nextId] at h1
    have h2 := List.pairwise_map.mp h1
    rw [hstepsw3]
    exact hlist.trans (sortByOrder_sorted_id _ h2)

/-- The step inputs used by the C9 witness: the existing manual step of
scenario B keeps its id 1, a new HTTP step gets a fresh id. -/
def stepsC9 : List StepInput :=
  [⟨some 1, "approve", .MANUAL, some emptyConfig, 0⟩,
   ⟨none, "call", .HTTP, some ⟨some "u", none, none⟩, 1⟩]

/-- Witness for the amended C9: updating scenario B's workflow with `stepsC9`
(whose one provided id is the workflow's own step id) succeeds and round-trips
through `getWorkflow` to exactly those two steps. -/
theorem C9_update_get_roundtrip_witness :
    ∃ w, (updateWorkflow dbB0 0 none none stepsC9).2 = .ok (some w) ∧
      w.steps = sortByOrder (materializeSteps 0 dbB0.nextId stepsC9) ∧
      List.Forall₂ (fun (inp : StepInput) (st : WorkflowStep) =>
        st.workflowId = 0 ∧ st.name = inp.name ∧ st.type = inp.type ∧
        st.config = inp.config.getD emptyConfig ∧ st.order = inp.order ∧
        (∀ j, inp.id = some j → st.id = j) ∧ (inp.id = none → dbB0.nextId ≤ st.id))
        stepsC9 (materializeSteps 0 dbB0.nextId stepsC9) ∧
      (List.Pairwise (fun (a b : StepInput) => a.order < b.order) stepsC9 →
        w.steps = materializeSteps 0 dbB0.nextId stepsC9) :=
  C9_update_get_roundtrip dbB0 0 none none stepsC9 wfB rfl (by decide) (by decide) (by decide)

end StateRail
